import Mathlib

/-!
# os-scheduler: resources, round-robin eviction, the machine and the parser

A shallow embedding of `pkg/machine/resource.go`, `pkg/machine/round-robin.go`, `queue.go`,
`machine.go` and `cmd/main.go`.

Conventions of the embedding.

* A Go `int` is an `Int`; the only arithmetic the embedded functions do on it is
  comparison, `%`, `+ 1` on an index, `++` and one product, and `++` on the clock and the
  product wrap at 64 bits (`wrapInt`).
* A `*Process` is a `Process` value: the fields of the struct the pointer refers to,
  as they are when the embedded function reads them, and the pointer is not nil.  None of
  the embedded functions writes a field of a process; a resource only calls methods of the
  process (`AssignToCpu`, `AssignToIo`, `onEvict`), which are declared in a file that is not
  among the sources, and every such call is recorded as a `Call` in the order in which it
  is made.
* A function that returns a Go `error` returns the error text in its result (`none` or
  `Except.ok` when the error is nil).
* A function that panics returns `Except.error` with the text of the panic; a method of the
  machine also returns the machine as it is when the panic is raised.
* A method with a pointer receiver takes the receiver and returns the receiver as it is
  after the call.
* A Go `string` is the list of its bytes (`GoString`); string literals of the sources are
  written `ascii "..."`.
* A package variable that holds the value of a command-line flag is a parameter of the
  function that reads it.
-/

namespace OsScheduler

/-! ## Data model -/

/-- The type `ResourceState` of resource.go, lines 5 to 10. -/
inductive ResourceState where
  | FREE
  | BUSY
  deriving DecidableEq, Repr

/-- The type `ResourceType` of resource.go, lines 12 to 18. -/
inductive ResourceType where
  | CPU
  | IO1
  | IO2
  deriving DecidableEq, Repr

/-- Modelled from the spec: the process states, whose declaration is in a file that is not
among the sources.  machine.go names `TERMINATED`, `RUNNING`, `READY`, `BLOCKED` and
`READS_IO`; the spec adds `UNSCHEDULED`. -/
inductive ProcState where
  | UNSCHEDULED
  | READY
  | RUNNING
  | BLOCKED
  | READS_IO
  | TERMINATED
  deriving DecidableEq, Repr

/-- The clock of machine.go, lines 42 to 44. -/
structure Clock where
  currentTick : Int
  deriving DecidableEq, Repr

/-- The method `Clock.GetCurrentTick` of machine.go, lines 50 to 52. -/
def Clock.GetCurrentTick (c : Clock) : Int :=
  c.currentTick

/-- Modelled from the spec: a task, whose declaration is in a file that is not among the
sources.  The two fields are those that `ParseTask` (cmd/main.go, line 52) fills in. -/
structure Task where
  ResouceType : ResourceType
  TotalTime : Int
  deriving DecidableEq, Repr

/-- Modelled from the spec: the process struct, whose declaration is in a file that is not
among the sources.  The fields are the ones the sources read: `id`, `arrivalTime` and
`state` (machine.go), `runningTime` and `clock` (round-robin.go).  `clock` is the clock the
process refers to, as it stands when it is read. -/
structure Process where
  id : Int
  arrivalTime : Int
  state : ProcState
  runningTime : Int
  clock : Clock
  deriving DecidableEq, Repr

/-- A call of a method of a process made by a resource: which method, on which process. -/
inductive Call where
  | AssignToCpu (p : Process)
  | AssignToIo (p : Process)
  | onEvict (p : Process)
  deriving DecidableEq, Repr

/-- The struct `Resource` of resource.go, lines 26 to 32.  `currentProc` is `none` for the
nil pointer. -/
structure Resource where
  name : String
  state : ResourceState
  resourceType : ResourceType
  currentProc : Option Process
  ProcRunningTime : Int
  deriving DecidableEq, Repr

/-- The struct `CpuPool` of resource.go, lines 38 to 40. -/
structure CpuPool where
  cpus : List Resource
  deriving DecidableEq, Repr

/-- The value of a 64-bit signed Go `int` that holds the mathematical integer `x`
after wrap-around. -/
def wrapInt (x : Int) : Int :=
  (x + 2 ^ 63) % 2 ^ 64 - 2 ^ 63

/-! ## resource.go -/

/-- The function `NewResource` of resource.go, lines 34 to 36. -/
def NewResource (name : String) (rType : ResourceType) : Resource :=
  { name := name, state := ResourceState.FREE, resourceType := rType,
    currentProc := none, ProcRunningTime := 0 }

/-- The loop of `NewCpuPool` (resource.go, lines 44 to 46): the resources built for the
indices `i, i+1, ..., i+k-1`. -/
def NewCpuPool.loop : Nat → Nat → List Resource
  | 0, _ => []
  | k + 1, i => NewResource ("CPU" ++ toString (i + 1)) ResourceType.CPU :: NewCpuPool.loop k (i + 1)

/-- The function `NewCpuPool` of resource.go, lines 42 to 48.  `make` panics on a negative
length. -/
def NewCpuPool (n : Int) : Except String CpuPool :=
  if n < 0 then Except.error "makeslice: len out of range"
  else Except.ok { cpus := NewCpuPool.loop n.toNat 0 }

/-- The method `Resource.GetFree` of resource.go, lines 50 to 55: the returned pointer is
the receiver itself. -/
def Resource.GetFree (r : Resource) : Except String Resource × Resource :=
  if r.state = ResourceState.BUSY then (Except.error "Resource is busy", r)
  else (Except.ok r, r)

/-- The loop of `CpuPool.GetFree` (resource.go, lines 98 to 103) over the resources that
are left, the first of which has index `i`.  The returned pointer is given as the index of
the resource in the pool together with the resource it points to. -/
def CpuPool.GetFree.loop : List Resource → Nat → Except String (Nat × Resource)
  | [], _ => Except.error "No available cpus"
  | res :: rest, i =>
    if res.state = ResourceState.FREE then Except.ok (i, res)
    else CpuPool.GetFree.loop rest (i + 1)

/-- The method `CpuPool.GetFree` of resource.go, lines 97 to 104, with the pool after the
call. -/
def CpuPool.GetFree (cpu : CpuPool) : Except String (Nat × Resource) × CpuPool :=
  (CpuPool.GetFree.loop cpu.cpus 0, cpu)

/-- The method `Resource.AssignToFree` of resource.go, lines 57 to 70: the returned error
(`none` for nil), the resource after the call and the calls made on `p`. -/
def Resource.AssignToFree (r : Resource) (p : Process) : Option String × Resource × List Call :=
  if r.state = ResourceState.BUSY then (some "Resource is busy", r, [])
  else
    let r1 : Resource := { r with state := ResourceState.BUSY }
    let r2 : Resource := { r1 with currentProc := some p }
    match r2.resourceType with
    | ResourceType.CPU => (none, r2, [Call.AssignToCpu p])
    | ResourceType.IO1 => (none, r2, [ Call.AssignToIo p])
    | ResourceType.IO2 => (none, r2, [ Call.AssignToIo p])

/-- The method `Resource.Tick` of resource.go, lines 72 to 76. -/
def Resource.Tick (r : Resource) : Resource :=
  if r.state = ResourceState.BUSY then { r with ProcRunningTime := wrapInt (r.ProcRunningTime + 1) }
  else r

/-- The method `Resource.GetProcs` of resource.go, lines 78 to 83: the returned slice of
pointers (`none` for a nil pointer) and the resource after the call. -/
def Resource.GetProcs (r : Resource) : List (Option Process) × Resource :=
  if r.state = ResourceState.BUSY then ([r.currentProc], r)
  else ([], r)

/-- The method `Resource.MustEvict` of resource.go, lines 85 to 95: the resource after the
call and the calls made on `p`, or the text of the panic.  Reading the id of a nil
`currentProc` is the run-time panic of a nil dereference. -/
def Resource.MustEvict (r : Resource) (p : Process) : Except String (Resource × List Call) :=
  if r.state = ResourceState.FREE then
    Except.error "Can't evict process. Resource is free"
  else
    match r.currentProc with
    | none => Except.error "invalid memory address or nil pointer dereference"
    | some c =>
      if c.id ≠ p.id then
        Except.error ("Process " ++ toString p.id ++ " is not running on resource")
      else
        let r1 : Resource := { r with state := ResourceState.FREE }
        let r2 : Resource := { r1 with currentProc := none }
        Except.ok (r2, [Call.onEvict p])

/-- The method `CpuPool.Tick` of resource.go, lines 106 to 110. -/
def CpuPool.Tick (cpu : CpuPool) : CpuPool :=
  { cpus := cpu.cpus.map Resource.Tick }

/-- The loop of `CpuPool.GetProcs` (resource.go, lines 114 to 116) over the resources that
are left, with `procs` as collected so far. -/
def CpuPool.GetProcs.loop : List Resource → List (Option Process) → List (Option Process)
  | [], procs => procs
  | res :: rest, procs => CpuPool.GetProcs.loop rest (procs ++ (Resource.GetProcs res).1)

/-- The method `CpuPool.GetProcs` of resource.go, lines 112 to 118, with the pool after the
call. -/
def CpuPool.GetProcs (cpu : CpuPool) : List (Option Process) × CpuPool :=
  (CpuPool.GetProcs.loop cpu.cpus [], cpu)

/-- The loop of `CpuPool.MustEvict` (resource.go, lines 121 to 127) over the resources that
are left: these resources after the call and the calls made on `p`, or the text of the
panic. -/
def CpuPool.MustEvict.loop (p : Process) : List Resource → Except String (List Resource × List Call)
  | [] => Except.error ("Process " ++ toString p.id ++ " is not running on cpu")
  | res :: rest =>
    if res.state = ResourceState.BUSY then
      match res.currentProc with
      | none => Except.error "invalid memory address or nil pointer dereference"
      | some c =>
        if c.id = p.id then
          match Resource.MustEvict res p with
          | Except.error e => Except.error e
          | Except.ok (res1, calls) => Except.ok (res1 :: rest, calls)
        else
          match CpuPool.MustEvict.loop p rest with
          | Except.error e => Except.error e
          | Except.ok (rest1, calls) => Except.ok (res :: rest1, calls)
    else
      match CpuPool.MustEvict.loop p rest with
      | Except.error e => Except.error e
      | Except.ok (rest1, calls) => Except.ok (res :: rest1, calls)

/-- The method `CpuPool.MustEvict` of resource.go, lines 120 to 128. -/
def CpuPool.MustEvict (cpu : CpuPool) (p : Process) : Except String (CpuPool × List Call) :=
  match CpuPool.MustEvict.loop p cpu.cpus with
  | Except.error e => Except.error e
  | Except.ok (cpus, calls) => Except.ok ({ cpus := cpus }, calls)

/-- The invariant of a resource in the spec: the state is BUSY if and only if a current
process is set. -/
def Resource.Inv (r : Resource) : Prop :=
  r.state = ResourceState.BUSY ↔ r.currentProc.isSome = true

instance (r : Resource) : Decidable (Resource.Inv r) := by
  unfold Resource.Inv
  infer_instance

/-- The invariant of a pool: each of its resources satisfies the invariant of a
resource. -/
def CpuPool.Inv (cpu : CpuPool) : Prop :=
  ∀ r ∈ cpu.cpus, Resource.Inv r

instance (cpu : CpuPool) : Decidable (CpuPool.Inv cpu) := by
  unfold CpuPool.Inv
  infer_instance

/-! ## round-robin.go -/

/-- The struct `RoundRobin` of round-robin.go, lines 5 to 7. -/
structure RoundRobin where
  quantum : Int
  deriving DecidableEq, Repr

/-- The function `NewRoundRobinEvictor` of round-robin.go, lines 9 to 11. -/
def NewRoundRobinEvictor (quantum : Int) : RoundRobin :=
  { quantum := quantum }

/-- The loop of `RoundRobin.ChooseToEvict` (round-robin.go, lines 15 to 22) over the
processes that are left, with `procsToEvict` as collected so far.  `IsTaskCompleted` is the
method of the process of that name, which is declared in a file that is not among the
sources.  Go's `%` truncates towards zero (`Int.tmod`) and panics on a zero divisor. -/
def RoundRobin.ChooseToEvict.loop (IsTaskCompleted : Process → Bool) (r : RoundRobin) :
    List Process → List Process → Except String (List Process)
  | [], procsToEvict => Except.ok procsToEvict
  | p :: rest, procsToEvict =>
    if p.runningTime > r.quantum then
      Except.error ("Process " ++ toString p.id ++ " has passed time " ++ toString p.runningTime ++
        ", but quantum is " ++ toString r.quantum)
    else if r.quantum = 0 then
      Except.error "integer divide by zero"
    else if Int.tmod p.clock.GetCurrentTick r.quantum = 0 || IsTaskCompleted p then
      RoundRobin.ChooseToEvict.loop IsTaskCompleted r rest (procsToEvict ++ [p])
    else
      RoundRobin.ChooseToEvict.loop IsTaskCompleted r rest procsToEvict

/-- The method `RoundRobin.ChooseToEvict` of round-robin.go, lines 13 to 24: the returned
slice, or the text of the panic. -/
def RoundRobin.ChooseToEvict (IsTaskCompleted : Process → Bool) (r : RoundRobin)
    (procs : List Process) : Except String (List Process) :=
  RoundRobin.ChooseToEvict.loop IsTaskCompleted r procs []

/-! ## queue.go -/

/-- The struct `QueueElement` of queue.go, lines 5 to 8. -/
structure QueueElement where
  process : Process
  enterTime : Int
  deriving DecidableEq, Repr

/-- The struct `ProcQueue` of queue.go, lines 10 to 13. -/
structure ProcQueue where
  name : String
  elements : List QueueElement
  deriving DecidableEq, Repr

/-- The method `ProcQueue.Push` of queue.go, lines 15 to 17. -/
def ProcQueue.Push (pq : ProcQueue) (p : Process) (enterTime : Int) : ProcQueue :=
  { pq with elements := pq.elements ++ [{ process := p, enterTime := enterTime }] }

/-! ## machine.go -/

/-- A Go slice seen from its first element: `array` is the backing array from that element
up to the capacity of the slice, `len` is the length of the slice.  Two slices over one
backing array share `array`. -/
structure Slice (α : Type) where
  array : List α
  len : Nat
  deriving DecidableEq, Repr

/-- The elements of a slice. -/
def Slice.toList {α : Type} (s : Slice α) : List α :=
  s.array.take s.len

/-- The slice whose elements are those of `l`, with no spare capacity. -/
def Slice.ofList {α : Type} (l : List α) : Slice α :=
  { array := l, len := l.length }

/-- The Go expression `append(s[:i], s[i+1:]...)` of machine.go, line 112.
`s[:i]` panics unless `0 ≤ i ≤ cap(s)`, and `s[i+1:]` panics unless `i+1 ≤ len(s)`; lengths
are below `2^63`, so `i+1` does not wrap once `i ≤ cap(s)`.  The result fits the capacity
of `s[:i]`, so `append` writes in place: the elements `i+1 .. len-1` move one place down
and every other place of the backing array, place `len-1` included, keeps its element. -/
def Slice.deleteAt {α : Type} (s : Slice α) (i : Int) : Except String (Slice α) :=
  if i < 0 ∨ (s.array.length : Int) < i then
    Except.error ("slice bounds out of range [:" ++ toString i ++ "] with capacity " ++
      toString s.array.length)
  else if (s.len : Int) < i + 1 then
    Except.error ("slice bounds out of range [" ++ toString (i + 1) ++ ":" ++
      toString s.len ++ "]")
  else
    Except.ok
      { array := s.array.take i.toNat ++
          ((s.array.drop (i.toNat + 1)).take (s.len - (i.toNat + 1)) ++
            s.array.drop (s.len - 1)),
        len := s.len - 1 }

/-- Modelled from the spec: the scheduler that machine.go calls through `PushToQueue`,
whose declaration is in a file that is not among the sources.  Only its queue is kept. -/
structure Scheduler where
  queue : ProcQueue
  deriving DecidableEq, Repr

/-- Modelled from the spec: the method `PushToQueue` of a scheduler, which is in a file
that is not among the sources.  The spec has it enqueue the process (4.6), at the back of
the queue, with `enter_tick` set to the current clock (4.3). -/
def Scheduler.PushToQueue (s : Scheduler) (clock : Clock) (p : Process) : Scheduler :=
  { s with queue := ProcQueue.Push s.queue p clock.GetCurrentTick }

/-- The processes in the queue of a scheduler, in queue order. -/
def Scheduler.procs (s : Scheduler) : List Process :=
  s.queue.elements.map QueueElement.process

/-- The struct `Machine` of machine.go, lines 32 to 40.  The three schedulers are three
distinct objects.  `unscheduledProcs` is a slice with its backing array, because
`checkForNewProcs` writes to it while it ranges over it.  `runningProcs` is given by its
elements: what `handleEvictedProc` and `checkForNewProcs` do with it does not depend on its
spare capacity. -/
structure Machine where
  cpuScheduler : Scheduler
  io1Scheduler : Scheduler
  io2Scheduler : Scheduler
  unscheduledProcs : Slice Process
  runningProcs : List Process
  clock : Clock
  deriving DecidableEq, Repr

/-- The loop of `Machine.checkForNewProcs` (machine.go, lines 104 to 114) for the `k`
indices from `i` on.  `range` fixes the number of iterations when the loop starts and reads
the element of index `i` from the backing array as it is in iteration `i`.  The result is
the machine after the loop, or the text of the panic with the machine as it is when the
panic is raised.  Writing to the log is left out. -/
def Machine.checkForNewProcs.loop : Nat → Nat → Machine → Except (String × Machine) Machine
  | 0, _, m => Except.ok m
  | k + 1, i, m =>
    match m.unscheduledProcs.array[i]? with
    | none => Except.error ("index out of range", m)
    | some p =>
      if m.clock.currentTick < p.arrivalTime then
        Machine.checkForNewProcs.loop k (i + 1) m
      else
        let m1 : Machine := { m with cpuScheduler := m.cpuScheduler.PushToQueue m.clock p }
        match m1.unscheduledProcs.deleteAt i with
        | Except.error e => Except.error (e, m1)
        | Except.ok u =>
          let m2 : Machine := { m1 with unscheduledProcs := u }
          let m3 : Machine := { m2 with runningProcs := m2.runningProcs ++ [p] }
          Machine.checkForNewProcs.loop k (i + 1) m3

/-- The method `Machine.checkForNewProcs` of machine.go, lines 103 to 115. -/
def Machine.checkForNewProcs (m : Machine) : Except (String × Machine) Machine :=
  Machine.checkForNewProcs.loop m.unscheduledProcs.len 0 m

/-- The method `Machine.pushToIO` of machine.go, lines 146 to 157.  `CurTask` is the method
of the process of that name, which is declared in a file that is not among the sources. -/
def Machine.pushToIO (CurTask : Process → Task) (m : Machine) (p : Process) :
    Except (String × Machine) Machine :=
  match (CurTask p).ResouceType with
  | ResourceType.IO1 => Except.ok { m with io1Scheduler := m.io1Scheduler.PushToQueue m.clock p }
  | ResourceType.IO2 => Except.ok { m with io2Scheduler := m.io2Scheduler.PushToQueue m.clock p }
  | ResourceType.CPU =>
    Except.error ("Proc " ++ toString p.id ++ " is blocked by current task is cpu", m)

/-- The method `Machine.handleEvictedProc` of machine.go, lines 129 to 144.  In the case
TERMINATED the slice expressions of line 134 panic unless `0 ≤ p.id` and
`p.id + 1 ≤ len(runningProcs)`, and otherwise `append` leaves the elements before index
`p.id` followed by those after it; the switch has no case for UNSCHEDULED, which does
nothing.  Writing to the log is left out. -/
def Machine.handleEvictedProc (CurTask : Process → Task) (m : Machine) (p : Process) :
    Except (String × Machine) Machine :=
  match p.state with
  | ProcState.TERMINATED =>
    if p.id < 0 ∨ (m.runningProcs.length : Int) < p.id + 1 then
      Except.error ("slice bounds out of range", m)
    else
      Except.ok { m with runningProcs :=
        m.runningProcs.take p.id.toNat ++ m.runningProcs.drop (p.id.toNat + 1) }
  | ProcState.RUNNING => Except.ok { m with cpuScheduler := m.cpuScheduler.PushToQueue m.clock p }
  | ProcState.READY => Except.ok { m with cpuScheduler := m.cpuScheduler.PushToQueue m.clock p }
  | ProcState.BLOCKED => Machine.pushToIO CurTask m p
  | ProcState.READS_IO =>
    Except.error ("Process " ++ toString p.id ++
      " evicted in READS_IO state but IO scheduler is nonpreemptive\n", m)
  | ProcState.UNSCHEDULED => Except.ok m

/-- The method `ProcQueue.Pop` of queue.go, lines 19 to 26: the returned process or the
returned error, and the queue after the call.  With the error Go also returns a pointer to
a zero `Process`, which is left out. -/
def ProcQueue.Pop (pq : ProcQueue) : Except String Process × ProcQueue :=
  match pq.elements with
  | [] => (Except.error "Queue is empty", pq)
  | p :: rest => (Except.ok p.process, { pq with elements := rest })

/-- The queue after the calls `Push(p, enterTime)` for the pairs of `ps`, in order. -/
def ProcQueue.pushAll (pq : ProcQueue) (ps : List (Process × Int)) : ProcQueue :=
  ps.foldl (fun q x => ProcQueue.Push q x.1 x.2) pq

/-- The results of `n` successive calls of `Pop`, in order, and the queue after them. -/
def ProcQueue.popN : Nat → ProcQueue → List (Except String Process) × ProcQueue
  | 0, pq => ([], pq)
  | n + 1, pq =>
    ((ProcQueue.Pop pq).1 :: (ProcQueue.popN n (ProcQueue.Pop pq).2).1,
      (ProcQueue.popN n (ProcQueue.Pop pq).2).2)

/-- A resource holds a process with the given id: it is BUSY and the id of its current
process is `id`. -/
def Resource.holdsId (r : Resource) (id : Int) : Prop :=
  r.state = ResourceState.BUSY ∧ r.currentProc.map Process.id = some id

instance (r : Resource) (id : Int) : Decidable (Resource.holdsId r id) := by
  unfold Resource.holdsId
  infer_instance

/-! ## cmd/main.go: the choice of the scheduler -/

/-- A Go string, given by its bytes. -/
abbrev GoString := List Nat

/-- The bytes of a string literal that has ASCII characters only. -/
def ascii (s : String) : GoString :=
  s.toList.map Char.toNat

/-- The text of a Go string whose bytes are all ASCII, for the text of a panic. -/
def GoString.text (s : GoString) : String :=
  String.mk (s.map Char.ofNat)

/-- Modelled from the spec: the SRT scheduler that `NewSchedulerSRT(procQueue, cpuCount)`
builds; the constructor is in a file that is not among the sources.  The object is given
by the two arguments of the constructor. -/
structure SchedulerSRT where
  procQueue : ProcQueue
  cpuCount : Int
  deriving DecidableEq, Repr

/-- Modelled from the spec: the evictors that the constructors `NewNonPreemptive`,
`NewRoundRobinEvictor` and `NewSchedulerSRT` build; the interface `Evictor` and the first and
the third constructor are in files that are not among the sources. -/
inductive Evictor where
  | NonPreemptive
  | RoundRobin (r : RoundRobin)
  | SRT (srt : SchedulerSRT)
  deriving DecidableEq, Repr

/-- Modelled from the spec: the selection functions that the constructors
`NewSelectionFIFO`, `NewSelectionSPN`, `NewSelectionHRRN` and `NewSchedulerSRT` build; the
interface and the constructors are in files that are not among the sources. -/
inductive SelectionFunction where
  | FIFO
  | SPN
  | HRRN
  | SRT (srt : SchedulerSRT)
  deriving DecidableEq, Repr

/-- The function `getScheduler` of cmd/main.go, lines 96 to 116: the returned pair, or the
text of the panic.  `roundRobinQuantum` is the value of the flag `-quantum`, which the
function reads from a package variable. -/
def getScheduler (roundRobinQuantum : Int) (schedAlgo : GoString) (procQueue : ProcQueue)
    (cpuCount : Int) : Except String (Evictor × SelectionFunction) :=
  if schedAlgo = ascii "fcfs" then
    Except.ok (Evictor.NonPreemptive, SelectionFunction.FIFO)
  else if schedAlgo = ascii "rr1" then
    Except.ok (Evictor.RoundRobin (NewRoundRobinEvictor 1), SelectionFunction.FIFO)
  else if schedAlgo = ascii "rr4" then
    Except.ok (Evictor.RoundRobin (NewRoundRobinEvictor 4), SelectionFunction.FIFO)
  else if schedAlgo = ascii "rr" then
    Except.ok (Evictor.RoundRobin (NewRoundRobinEvictor roundRobinQuantum),
      SelectionFunction.FIFO)
  else if schedAlgo = ascii "spn" then
    Except.ok (Evictor.NonPreemptive, SelectionFunction.SPN)
  else if schedAlgo = ascii "srt" then
    let srt : SchedulerSRT := { procQueue := procQueue, cpuCount := cpuCount }
    Except.ok (Evictor.SRT srt, SelectionFunction.SRT srt)
  else if schedAlgo = ascii "hrrn" then
    Except.ok (Evictor.NonPreemptive, SelectionFunction.HRRN)
  else
    Except.error ("Unknown scheduling algorithm " ++ GoString.text schedAlgo)

/-- The values that the help text of the flag `-algo` gives as possible (cmd/main.go,
line 24: "Possible values: fcfs, rr1, rr2, spn, srt, hrrn, rr"). -/
def schedAlgoPossibleValues : List GoString :=
  [ascii "fcfs", ascii "rr1", ascii "rr2", ascii "spn", ascii "srt", ascii "hrrn", ascii "rr"]

/-! ## machine.go: one tick -/

/-- The methods of a scheduler that `Machine.tick` calls besides `PushToQueue`.  They are
declared in a file that is not among the sources and are taken as they come:
`CheckRunningProcs` and `ProcessQueue` give the scheduler after the call or the text of a
panic, `GetEvictedProcs` gives the evicted processes and `ClearEvictedProcs` the scheduler
after the call.  None of them writes the clock, which only the tick loop does. -/
structure SchedulerMethods where
  CheckRunningProcs : Scheduler → Except String Scheduler
  GetEvictedProcs : Scheduler → List Process
  ClearEvictedProcs : Scheduler → Scheduler
  ProcessQueue : Scheduler → Except String Scheduler

/-- A call `p.Tick()` made by `Machine.tick`, with the tick that the clock of the machine
shows when the call is made. -/
structure ProcTickCall where
  proc : Process
  clockTick : Int
  deriving DecidableEq, Repr

/-- A panic raised inside a method of a scheduler, seen from the machine `m` that made the
call. -/
def Machine.inScheduler (m : Machine) (r : Except String Scheduler) :
    Except (String × Machine) Scheduler :=
  match r with
  | Except.error e => Except.error (e, m)
  | Except.ok s => Except.ok s

/-- The loop of `Machine.handleAllEvictedProcs` (machine.go, lines 121 to 123) over the
evicted processes that are left. -/
def Machine.handleAllEvictedProcs.loop (CurTask : Process → Task) :
    List Process → Machine → Except (String × Machine) Machine
  | [], m => Except.ok m
  | p :: ep, m =>
    match Machine.handleEvictedProc CurTask m p with
    | Except.error e => Except.error e
    | Except.ok m1 => Machine.handleAllEvictedProcs.loop CurTask ep m1

/-- The method `Machine.handleAllEvictedProcs` of machine.go, lines 117 to 127. -/
def Machine.handleAllEvictedProcs (ops : SchedulerMethods) (CurTask : Process → Task)
    (m : Machine) : Except (String × Machine) Machine :=
  let ep := ops.GetEvictedProcs m.cpuScheduler
  let ep := ep ++ ops.GetEvictedProcs m.io1Scheduler
  let ep := ep ++ ops.GetEvictedProcs m.io2Scheduler
  match Machine.handleAllEvictedProcs.loop CurTask ep m with
  | Except.error e => Except.error e
  | Except.ok m1 =>
    let m2 : Machine := { m1 with cpuScheduler := ops.ClearEvictedProcs m1.cpuScheduler }
    let m3 : Machine := { m2 with io1Scheduler := ops.ClearEvictedProcs m2.io1Scheduler }
    let m4 : Machine := { m3 with io2Scheduler := ops.ClearEvictedProcs m3.io2Scheduler }
    Except.ok m4

/-- The method `Machine.tick` of machine.go, lines 83 to 101, statement by statement: the
machine after the call and the calls `p.Tick()` of the loop of lines 98 to 100 in the order
in which they are made, or the text of the panic with the machine as it is then.
`currentTick++` wraps at 64 bits. -/
def Machine.tick (ops : SchedulerMethods) (CurTask : Process → Task) (m : Machine) :
    Except (String × Machine) (Machine × List ProcTickCall) := do
  let m ← Machine.checkForNewProcs m
  let s ← m.inScheduler (ops.CheckRunningProcs m.cpuScheduler)
  let m : Machine := { m with cpuScheduler := s }
  let s ← m.inScheduler (ops.CheckRunningProcs m.io1Scheduler)
  let m : Machine := { m with io1Scheduler := s }
  let s ← m.inScheduler (ops.CheckRunningProcs m.io2Scheduler)
  let m : Machine := { m with io2Scheduler := s }
  let m ← Machine.handleAllEvictedProcs ops CurTask m
  let s ← m.inScheduler (ops.ProcessQueue m.cpuScheduler)
  let m : Machine := { m with cpuScheduler := s }
  let s ← m.inScheduler (ops.ProcessQueue m.io1Scheduler)
  let m : Machine := { m with io1Scheduler := s }
  let s ← m.inScheduler (ops.ProcessQueue m.io2Scheduler)
  let m : Machine := { m with io2Scheduler := s }
  let m : Machine := { m with clock := { currentTick := wrapInt (m.clock.currentTick + 1) } }
  let calls := m.runningProcs.map (fun p => { proc := p, clockTick := m.clock.GetCurrentTick })
  return (m, calls)

/-! ## cmd/main.go: parsing

The functions of the Go library that the parser calls are given by what their
documentation says they do, on strings given by their bytes. -/

/-- The UTF-8 encodings of the 25 code points for which `unicode.IsSpace` holds: U+0009 to
U+000D, U+0020, U+0085, U+00A0, U+1680, U+2000 to U+200A, U+2028, U+2029, U+202F, U+205F
and U+3000. -/
def spaceEncodings : List GoString :=
  [[9], [10], [11], [12], [13], [32], [194, 133], [194, 160], [225, 154, 128],
    [226, 128, 128], [226, 128, 129], [226, 128, 130], [226, 128, 131], [226, 128, 132],
    [226, 128, 133], [226, 128, 134], [226, 128, 135], [226, 128, 136], [226, 128, 137],
    [226, 128, 138], [226, 128, 168], [226, 128, 169], [226, 128, 175], [226, 129, 159],
    [227, 128, 128]]

/-- What is left of `s` after the leading bytes `e`, if `s` begins with `e`. -/
def dropLeading : GoString → GoString → Option GoString
  | [], s => some s
  | _ :: _, [] => none
  | a :: e, b :: s => if a = b then dropLeading e s else none

/-- What is left of `s` after the first of the byte sequences `encs` that `s` begins
with, if there is one. -/
def firstMatch (encs : List GoString) (s : GoString) : Option GoString :=
  encs.findSome? (fun e => dropLeading e s)

/-- At most `n` times, remove from the front of the string one of the byte sequences
`encs`, until the string begins with none of them. -/
def trimLoop (encs : List GoString) : Nat → GoString → GoString
  | 0, s => s
  | n + 1, s =>
    match firstMatch encs s with
    | some rest => trimLoop encs n rest
    | none => s

/-- The function `strings.TrimSpace` of the Go library: the string without its leading and
trailing runes for which `unicode.IsSpace` holds.  The first rune of a string is such a rune
exactly when the string begins with its UTF-8 encoding, and the last rune is one exactly
when the string ends with its encoding (bytes that are not valid UTF-8 decode to U+FFFD,
which is not a space); no encoding is the beginning or the end of another.  Every removal
takes at least one byte, so the length of the string is enough as the number of rounds. -/
def TrimSpace (s : GoString) : GoString :=
  let left := trimLoop spaceEncodings s.length s
  (trimLoop (spaceEncodings.map List.reverse) left.length left.reverse).reverse

/-- The value of a string of decimal digits, the first digit being the most significant. -/
def decimalValue (digits : GoString) : Nat :=
  digits.foldl (fun acc c => acc * 10 + (c - 48)) 0

/-- The function `strconv.Atoi` of the Go library for a 64-bit `int`: an optional sign `+`
or `-`, then at least one decimal digit and nothing else; the value has to lie between
`-2^63` and `2^63 - 1`. -/
def Atoi (s : GoString) : Except String Int :=
  let neg : Bool := s.head? = some 45
  let body : GoString := if s.head? = some 43 ∨ s.head? = some 45 then s.tail else s
  if body = [] then Except.error "strconv.Atoi: invalid syntax"
  else if ¬ (∀ c ∈ body, 48 ≤ c ∧ c ≤ 57) then Except.error "strconv.Atoi: invalid syntax"
  else if neg then
    if decimalValue body ≤ 2 ^ 63 then Except.ok (-(decimalValue body : Int))
    else Except.error "strconv.Atoi: value out of range"
  else
    if decimalValue body < 2 ^ 63 then Except.ok (decimalValue body : Int)
    else Except.error "strconv.Atoi: value out of range"

/-- The function `strings.Split` of the Go library for a separator of one byte: the pieces
of `s` between the separators, in order; there is always at least one piece. -/
def Split (sep : Nat) : GoString → List GoString
  | [] => [[]]
  | c :: rest =>
    if c = sep then [] :: Split sep rest
    else
      match Split sep rest with
      | [] => [[c]]
      | piece :: pieces => (c :: piece) :: pieces

/-- The function `calcArrivalTime` of cmd/main.go, lines 31 to 33.  `arrivalInterval` is the
value of the flag `-interval`, which the function reads from a package variable; the
product is that of 64-bit Go `int`s. -/
def calcArrivalTime (arrivalInterval : Int) (procId : Int) : Int :=
  wrapInt (procId * arrivalInterval)

/-- The function `ParseTask` of cmd/main.go, lines 35 to 53: the returned task, or the text
of the panic.  `task[:3]` panics on a string of fewer than 3 bytes and
`task[4 : len(task)-1]` on one of fewer than 5; `taskType` starts as the zero value of
`ResourceType`, which is `CPU`, and the switch has no default. -/
def ParseTask (task : GoString) : Except String Task :=
  let task := TrimSpace task
  let taskType : ResourceType := ResourceType.CPU
  if task.length < 3 then
    Except.error ("slice bounds out of range [:3] with length " ++ toString task.length)
  else
    let taskTypeStr := task.take 3
    let taskType : ResourceType :=
      if taskTypeStr = ascii "IO1" then ResourceType.IO1
      else if taskTypeStr = ascii "IO2" then ResourceType.IO2
      else if taskTypeStr = ascii "CPU" then ResourceType.CPU
      else taskType
    if task.length - 1 < 4 then
      Except.error ("slice bounds out of range [4:" ++ toString (task.length - 1) ++ "]")
    else
      match Atoi ((task.take (task.length - 1)).drop 4) with
      | Except.error e => Except.error e
      | Except.ok taskTime => Except.ok { ResouceType := taskType, TotalTime := taskTime }

/-- The loop of `ParseProcess` (cmd/main.go, lines 64 to 66) over the task strings that
are left: the parsed tasks in order, or the text of the first panic. -/
def ParseProcess.loop : List GoString → Except String (List Task)
  | [] => Except.ok []
  | task :: tasks =>
    match ParseTask task with
    | Except.error e => Except.error e
    | Except.ok t =>
      match ParseProcess.loop tasks with
      | Except.error e => Except.error e
      | Except.ok ts => Except.ok (t :: ts)

/-- The lines 56 to 66 of `ParseProcess` (cmd/main.go): the slice `parsedTasks`, or the text
of the panic.  `strings.Split` gives at least one piece, so `tasks[len(tasks)-1]` is in
range. -/
def ParseProcess.parsedTasks (line : GoString) : Except String (List Task) :=
  let line := TrimSpace line
  let tasks := Split 59 line
  let tasks := if tasks.getLast? = some [] then tasks.dropLast else tasks
  ParseProcess.loop tasks

/-- The function `ParseProcess` of cmd/main.go, lines 55 to 69.  `NewProcess` is the
constructor of that name with the logger and the clock already given; it is declared in a
file that is not among the sources. -/
def ParseProcess (NewProcess : Int → Int → List Task → Process) (arrivalInterval : Int)
    (id : Int) (line : GoString) : Except String Process :=
  match ParseProcess.parsedTasks line with
  | Except.error e => Except.error e
  | Except.ok parsedTasks =>
    Except.ok (NewProcess id (calcArrivalTime arrivalInterval id) parsedTasks)

/-- The loop of `ParseProcesses` (cmd/main.go, lines 75 to 79) over the lines that the
scanner still has to give, with `i` as it is before the first of them.  `i` is the length
of the slice `processes`, so `i++` does not wrap. -/
def ParseProcesses.loop (NewProcess : Int → Int → List Task → Process) (arrivalInterval : Int) :
    List GoString → Int → Except String (List Process)
  | [], _ => Except.ok []
  | line :: lines, i =>
    match ParseProcess NewProcess arrivalInterval i line with
    | Except.error e => Except.error e
    | Except.ok process =>
      match ParseProcesses.loop NewProcess arrivalInterval lines (i + 1) with
      | Except.error e => Except.error e
      | Except.ok processes => Except.ok (process :: processes)

/-- The function `ParseProcesses` of cmd/main.go, lines 71 to 81, on the lines that the
scanner gives for the input, in order. -/
def ParseProcesses (NewProcess : Int → Int → List Task → Process) (arrivalInterval : Int)
    (lines : List GoString) : Except String (List Process) :=
  ParseProcesses.loop NewProcess arrivalInterval lines 0

/-- The first three bytes of a task literal of the given kind. -/
def kindName : ResourceType → GoString
  | ResourceType.CPU => ascii "CPU"
  | ResourceType.IO1 => ascii "IO1"
  | ResourceType.IO2 => ascii "IO2"

/-- The decimal digits of `n` as bytes, the most significant first, without leading
zeros; `0` is written `0`. -/
def decimal (n : Nat) : GoString :=
  if n = 0 then [48] else (Nat.digits 10 n).reverse.map (fun d => d + 48)

/-- The task literal `KIND(digits)`. -/
def taskLiteral (kind : ResourceType) (digits : GoString) : GoString :=
  kindName kind ++ 40 :: (digits ++ [41])

/-- The strings `xs` joined by the byte `sep`. -/
def joinBy (sep : Nat) : List GoString → GoString
  | [] => []
  | [x] => x
  | x :: y :: rest => x ++ sep :: joinBy sep (y :: rest)

/-- A string that is made of runes for which `unicode.IsSpace` holds. -/
def IsSpaces (ws : GoString) : Prop :=
  ∃ es : List GoString, (∀ e ∈ es, e ∈ spaceEncodings) ∧ ws = es.flatten

/-! ## Notions for the statements about the parser -/

/-- Two byte sequences differ at a place that both have. -/
def clash : GoString → GoString → Bool
  | a :: e, b :: f => a != b || clash e f
  | _, _ => false

/-- A string of at least one decimal digit. -/
def IsDigits (digits : GoString) : Prop :=
  digits ≠ [] ∧ ∀ c ∈ digits, 48 ≤ c ∧ c ≤ 57

instance (digits : GoString) : Decidable (IsDigits digits) := by
  unfold IsDigits
  infer_instance

/-- A well-formed task literal is `KIND(digits)` with a positive number below `2^63`. -/
def IsTaskNumber (digits : GoString) : Prop :=
  IsDigits digits ∧ 0 < decimalValue digits ∧ decimalValue digits < 2 ^ 63

instance (digits : GoString) : Decidable (IsTaskNumber digits) := by
  unfold IsTaskNumber
  infer_instance

/-- The line made of the task literals for the given kinds and digit strings, joined by
`;`. -/
def taskLine (lits : List (ResourceType × GoString)) : GoString :=
  joinBy 59 (lits.map (fun x => taskLiteral x.1 x.2))

/-- The tasks that the given kinds and digit strings stand for. -/
def tasksOf (lits : List (ResourceType × GoString)) : List Task :=
  lits.map (fun x => { ResouceType := x.1, TotalTime := (decimalValue x.2 : Int) })

/-- The processes that `ParseProcesses` builds for the task lists `tss`: the one of index
`i` has id `i`, arrival time `calcArrivalTime arrivalInterval i` and the tasks of index
`i`. -/
def processesOf (NewProcess : Int → Int → List Task → Process) (arrivalInterval : Int)
    (tss : List (List Task)) : List Process :=
  tss.enum.map (fun x => NewProcess (x.1 : Int) (calcArrivalTime arrivalInterval (x.1 : Int)) x.2)

/-! ## Concrete values -/

/-- A process with the given id that is READY, arrived at tick 0 and has not run. -/
def sampleProc (id : Int) : Process :=
  { id := id, arrivalTime := 0, state := ProcState.READY, runningTime := 0,
    clock := { currentTick := 0 } }

/-- The resource `CPU1` after it has held a process for three ticks and released it. -/
def usedResource : Resource :=
  { name := "CPU1", state := ResourceState.FREE, resourceType := ResourceType.CPU,
    currentProc := none, ProcRunningTime := 3 }

/-- A RUNNING process with the given id and running time whose clock shows `tick`. -/
def runningProc (id runningTime tick : Int) : Process :=
  { id := id, arrivalTime := 0, state := ProcState.RUNNING, runningTime := runningTime,
    clock := { currentTick := tick } }

/-- A process with the given id and arrival time that has not been scheduled yet. -/
def arrivingProc (id arrivalTime : Int) : Process :=
  { id := id, arrivalTime := arrivalTime, state := ProcState.UNSCHEDULED, runningTime := 0,
    clock := { currentTick := 0 } }

/-- A process with the given id that is TERMINATED. -/
def terminatedProc (id : Int) : Process :=
  { id := id, arrivalTime := 0, state := ProcState.TERMINATED, runningTime := 0,
    clock := { currentTick := 0 } }

/-- A scheduler with an empty queue of the given name. -/
def emptyScheduler (name : String) : Scheduler :=
  { queue := { name := name, elements := [] } }

/-- The machine with empty queues whose `unscheduledProcs` is a slice with the elements
`unscheduled` and no spare capacity (as `Machine.Run` receives it from `ParseProcesses` when
the capacity is the length), with the given running processes and clock tick. -/
def machineWith (unscheduled running : List Process) (tick : Int) : Machine :=
  { cpuScheduler := emptyScheduler "CPUs", io1Scheduler := emptyScheduler "IO1",
    io2Scheduler := emptyScheduler "IO2", unscheduledProcs := Slice.ofList unscheduled,
    runningProcs := running, clock := { currentTick := tick } }

/-- Whether a call of a method of the machine ended in a panic. -/
def panicked (r : Except (String × Machine) Machine) : Bool :=
  match r with
  | Except.ok _ => false
  | Except.error _ => true

/-- The machine as a call of a method of the machine leaves it, on return or at the
panic. -/
def machineAfter (r : Except (String × Machine) Machine) : Machine :=
  match r with
  | Except.ok m => m
  | Except.error (_, m) => m

/-- A BUSY resource of kind CPU with the given name that holds `p` and has run for
`t` ticks. -/
def busyCpu (name : String) (p : Process) (t : Int) : Resource :=
  { name := name, state := ResourceState.BUSY, resourceType := ResourceType.CPU,
    currentProc := some p, ProcRunningTime := t }

/-- A pool of four CPUs: the first holds process 3, the second is FREE, the third and the
fourth both hold a process of id 7. -/
def busyPool : CpuPool :=
  { cpus := [busyCpu "CPU1" (sampleProc 3) 2, NewResource "CPU2" ResourceType.CPU,
      busyCpu "CPU3" (sampleProc 7) 1, busyCpu "CPU4" (sampleProc 7) 5] }

theorem getFree_loop_ok (l : List Resource) (b i : Nat) (r : Resource) :
    CpuPool.GetFree.loop l b = Except.ok (i, r) ↔
      b ≤ i ∧ l[i - b]? = some r ∧ r.state = ResourceState.FREE ∧
        ∀ j, j < i - b → ∀ r', l[j]? = some r' → r'.state = ResourceState.BUSY := by
  induction l generalizing b with
  | nil => simp [CpuPool.GetFree.loop]
  | cons res rest ih =>
    unfold CpuPool.GetFree.loop
    by_cases h : res.state = ResourceState.FREE
    · simp only [h, if_true]
      constructor
      · intro he
        injection he with he
        injection he with h1 h2
        subst h1 h2
        simp [h]
      · rintro ⟨hb, hget, _, hlow⟩
        by_cases hi : i - b = 0
        · have : i = b := by omega
          subst this
          simp at hget
          subst hget
          rfl
        · exfalso
          have := hlow 0 (by omega) res (by simp)
          rw [h] at this
          cases this
    · simp only [h, if_false]
      rw [ih]
      have hbusy : res.state = ResourceState.BUSY := by
        cases hs : res.state
        · exact absurd hs h
        · rfl
      constructor
      · rintro ⟨hb, hget, hfree, hlow⟩
        refine ⟨by omega, ?_, hfree, ?_⟩
        · have : i - b = (i - (b + 1)) + 1 := by omega
          rw [this]
          simpa using hget
        · intro j hj r' hr'
          cases j with
          | zero =>
            simp at hr'
            subst hr'
            exact hbusy
          | succ j =>
            simp at hr'
            exact hlow j (by omega) r' hr'
      · rintro ⟨hb, hget, hfree, hlow⟩
        have hne : i ≠ b := by
          rintro rfl
          simp at hget
          subst hget
          exact h hfree
        refine ⟨by omega, ?_, hfree, ?_⟩
        · have : i - b = (i - (b + 1)) + 1 := by omega
          rw [this] at hget
          simpa using hget
        · intro j hj r' hr'
          exact hlow (j + 1) (by omega) r' (by simpa using hr')

theorem getFree_loop_error (l : List Resource) (b : Nat) :
    (∃ e, CpuPool.GetFree.loop l b = Except.error e) ↔
      ∀ r ∈ l, r.state ≠ ResourceState.FREE := by
  induction l generalizing b with
  | nil => simp [CpuPool.GetFree.loop]
  | cons res rest ih =>
    unfold CpuPool.GetFree.loop
    by_cases h : res.state = ResourceState.FREE
    · simp [h]
    · simp only [h, if_false]
      rw [ih]
      simp [h]

/-- C1: `CpuPool.GetFree` returns the resource at index `i` exactly when that resource is
FREE and every resource at a smaller index is BUSY; it returns an error exactly when no
resource of the pool is FREE, which covers the empty pool; the pool is left as it was. -/
theorem C1_getFree_lowest_free (cpu : CpuPool) :
    (∀ i r, (CpuPool.GetFree cpu).1 = Except.ok (i, r) ↔
      (cpu.cpus[i]? = some r ∧ r.state = ResourceState.FREE ∧
        ∀ j, j < i → ∀ r', cpu.cpus[j]? = some r' → r'.state = ResourceState.BUSY)) ∧
    ((∃ e, (CpuPool.GetFree cpu).1 = Except.error e) ↔
      ∀ r ∈ cpu.cpus, r.state ≠ ResourceState.FREE) ∧
    (∃ e, (CpuPool.GetFree { cpus := [] }).1 = Except.error e) ∧
    (CpuPool.GetFree cpu).2 = cpu := by
  refine ⟨?_, ?_, ?_, rfl⟩
  · intro i r
    have := getFree_loop_ok cpu.cpus 0 i r
    simpa [CpuPool.GetFree] using this
  · exact getFree_loop_error cpu.cpus 0
  · exact ⟨_, rfl⟩

/-! ### Round-robin eviction -/

theorem chooseToEvict_loop_ok (isc : Process → Bool) (q : Int) (hq : 1 ≤ q)
    (procs acc : List Process) (hrt : ∀ p ∈ procs, p.runningTime ≤ q) :
    RoundRobin.ChooseToEvict.loop isc { quantum := q } procs acc =
      Except.ok (acc ++ procs.filter
        (fun p => decide (Int.tmod p.clock.GetCurrentTick q = 0) || isc p)) := by
  induction procs generalizing acc with
  | nil => simp [RoundRobin.ChooseToEvict.loop]
  | cons p rest ih =>
    have hp : ¬ p.runningTime > q := by
      have := hrt p (List.mem_cons_self _ _)
      omega
    have hq0 : ¬ q = 0 := by omega
    have hrest : ∀ x ∈ rest, x.runningTime ≤ q := fun x hx => hrt x (List.mem_cons_of_mem _ hx)
    unfold RoundRobin.ChooseToEvict.loop
    simp only [hp, hq0, if_false]
    by_cases hc : (decide (Int.tmod p.clock.GetCurrentTick q = 0) || isc p) = true
    · rw [if_pos hc, ih _ hrest, List.filter_cons, if_pos hc]
      simp
    · rw [if_neg hc, ih _ hrest, List.filter_cons, if_neg hc]

theorem chooseToEvict_loop_error (isc : Process → Bool) (q : Int) (hq : 1 ≤ q)
    (procs acc : List Process) :
    (∃ e, RoundRobin.ChooseToEvict.loop isc { quantum := q } procs acc = Except.error e) ↔
      ∃ p ∈ procs, p.runningTime > q := by
  induction procs generalizing acc with
  | nil => simp [RoundRobin.ChooseToEvict.loop]
  | cons p rest ih =>
    have hq0 : ¬ q = 0 := by omega
    unfold RoundRobin.ChooseToEvict.loop
    by_cases hp : p.runningTime > q
    · simp only [hp, if_true]
      exact ⟨fun _ => ⟨p, List.mem_cons_self _ _, hp⟩, fun _ => ⟨_, rfl⟩⟩
    · simp only [hp, hq0, if_false]
      have hex : (∃ x ∈ p :: rest, x.runningTime > q) ↔ ∃ x ∈ rest, x.runningTime > q := by
        constructor
        · rintro ⟨x, hx, hxq⟩
          rcases List.mem_cons.mp hx with rfl | hx
          · exact absurd hxq hp
          · exact ⟨x, hx, hxq⟩
        · rintro ⟨x, hx, hxq⟩
          exact ⟨x, List.mem_cons_of_mem _ hx, hxq⟩
      rw [hex]
      split
      · exact ih _
      · exact ih _

/-- C2: for a quantum `q ≥ 1` and processes whose `runningTime` is at most `q`,
`RoundRobin.ChooseToEvict` returns the processes of the input list for which
`clock % q == 0` or whose current task is completed, each once and in input order.  When
all the processes refer to one clock with tick `c`, it returns the whole list if
`c % q == 0` and exactly the processes with a completed task otherwise. -/
theorem C2_roundRobin_evicts_completed_or_boundary (IsTaskCompleted : Process → Bool) (q : Int)
    (procs : List Process) (hq : 1 ≤ q) (hrt : ∀ p ∈ procs, p.runningTime ≤ q) :
    RoundRobin.ChooseToEvict IsTaskCompleted (NewRoundRobinEvictor q) procs =
        Except.ok (procs.filter
          (fun p => decide (Int.tmod p.clock.GetCurrentTick q = 0) || IsTaskCompleted p)) ∧
    ∀ c : Int, (∀ p ∈ procs, p.clock.GetCurrentTick = c) →
      (Int.tmod c q = 0 →
        RoundRobin.ChooseToEvict IsTaskCompleted (NewRoundRobinEvictor q) procs
          = Except.ok procs) ∧
      (Int.tmod c q ≠ 0 →
        RoundRobin.ChooseToEvict IsTaskCompleted (NewRoundRobinEvictor q) procs
          = Except.ok (procs.filter IsTaskCompleted)) := by
  have main := chooseToEvict_loop_ok IsTaskCompleted q hq procs [] hrt
  simp only [List.nil_append] at main
  refine ⟨main, ?_⟩
  intro c hc
  unfold RoundRobin.ChooseToEvict NewRoundRobinEvictor
  rw [main]
  constructor
  · intro h0
    congr 1
    apply List.filter_eq_self.mpr
    intro p hp
    simp [hc p hp, h0]
  · intro h0
    congr 1
    apply List.filter_congr
    intro p hp
    simp [hc p hp, h0]

/-- C3: for a quantum `q ≥ 1`, `RoundRobin.ChooseToEvict` panics, and so returns no list,
if and only if some process of the list has `runningTime > q`. -/
theorem C3_roundRobin_panics_iff_over_quantum (IsTaskCompleted : Process → Bool) (q : Int)
    (procs : List Process) (hq : 1 ≤ q) :
    (∃ e, RoundRobin.ChooseToEvict IsTaskCompleted (NewRoundRobinEvictor q) procs
        = Except.error e) ↔
      ∃ p ∈ procs, p.runningTime > q :=
  chooseToEvict_loop_error IsTaskCompleted q hq procs []

/-- C2 at a concrete input: quantum 2, clock tick 3, two processes with running times 1
and 2, of which only the one with id 1 has completed its task; that one alone is
returned. -/
theorem C2_roundRobin_evicts_completed_or_boundary_witness :
    (1 : Int) ≤ 2 ∧
    (∀ p ∈ [runningProc 0 1 3, runningProc 1 2 3], p.runningTime ≤ 2) ∧
    RoundRobin.ChooseToEvict (fun p => decide (p.id = 1)) (NewRoundRobinEvictor 2)
      [runningProc 0 1 3, runningProc 1 2 3] = Except.ok [runningProc 1 2 3] :=
  ⟨by decide, by decide,
    (C2_roundRobin_evicts_completed_or_boundary (fun p => decide (p.id = 1)) 2
      [runningProc 0 1 3, runningProc 1 2 3] (by decide) (by decide)).1.trans
      (congrArg Except.ok (by decide))⟩

/-- C3 at a concrete input: quantum 2 and a list whose second process has running time 3. -/
theorem C3_roundRobin_panics_iff_over_quantum_witness :
    (1 : Int) ≤ 2 ∧
    ((∃ e, RoundRobin.ChooseToEvict (fun _ => false) (NewRoundRobinEvictor 2)
        [runningProc 0 1 3, runningProc 1 3 3] = Except.error e) ↔
      ∃ p ∈ [runningProc 0 1 3, runningProc 1 3 3], p.runningTime > 2) :=
  ⟨by decide,
    C3_roundRobin_panics_iff_over_quantum (fun _ => false) 2
      [runningProc 0 1 3, runningProc 1 3 3] (by decide)⟩

/-! ### Resources -/

theorem ResourceState.eq_BUSY_of_ne_FREE {s : ResourceState} (h : s ≠ ResourceState.FREE) :
    s = ResourceState.BUSY := by
  cases s
  · exact absurd rfl h
  · rfl

theorem ResourceState.eq_FREE_of_ne_BUSY {s : ResourceState} (h : s ≠ ResourceState.BUSY) :
    s = ResourceState.FREE := by
  cases s
  · rfl
  · exact absurd rfl h

theorem Resource.AssignToFree_procRunningTime (r : Resource) (p : Process) :
    (Resource.AssignToFree r p).2.1.ProcRunningTime = r.ProcRunningTime := by
  unfold Resource.AssignToFree
  split
  · rfl
  · dsimp only
    split <;> rfl

/-- C4, the claim as stated fails: `usedResource` is what `NewResource` gives after one
assignment, three ticks and the eviction; it is FREE with `ProcRunningTime` 3, and after a
successful `AssignToFree` its `ProcRunningTime` is still 3, not 0. -/
theorem C4_counterexample_procRunningTime_not_reset :
    (Resource.MustEvict
        (Resource.Tick (Resource.Tick (Resource.Tick
          (Resource.AssignToFree (NewResource "CPU1" ResourceType.CPU) (sampleProc 0)).2.1)))
        (sampleProc 0)).toOption.map Prod.fst = some usedResource ∧
    usedResource.state = ResourceState.FREE ∧
    (Resource.AssignToFree usedResource (sampleProc 1)).1 = none ∧
    (Resource.AssignToFree usedResource (sampleProc 1)).2.1.ProcRunningTime = 3 ∧
    (Resource.AssignToFree usedResource (sampleProc 1)).2.1.ProcRunningTime ≠ 0 := by
  refine ⟨?_, rfl, rfl, rfl, by decide⟩
  decide

/-- C4, amended: `Resource.AssignToFree` leaves `ProcRunningTime` as it was before the call,
so after the call it is 0 exactly when it was 0 before, as it is for a resource fresh from
`NewResource`. -/
theorem C4_assignToFree_keeps_procRunningTime (r : Resource) (p : Process) :
    (Resource.AssignToFree r p).2.1.ProcRunningTime = r.ProcRunningTime ∧
    ((Resource.AssignToFree r p).2.1.ProcRunningTime = 0 ↔ r.ProcRunningTime = 0) ∧
    ∀ name rType, (Resource.AssignToFree (NewResource name rType) p).1 = none ∧
      (Resource.AssignToFree (NewResource name rType) p).2.1.ProcRunningTime = 0 := by
  refine ⟨Resource.AssignToFree_procRunningTime r p, ?_, ?_⟩
  · rw [Resource.AssignToFree_procRunningTime]
  · intro name rType
    refine ⟨?_, ?_⟩
    · cases rType <;> rfl
    · rw [Resource.AssignToFree_procRunningTime]
      rfl

/-- C5: `Resource.AssignToFree(p)` returns an error if and only if the resource is BUSY; on
error the resource is unchanged and no method of `p` is called; on success the resource is
BUSY and holds `p`, its other fields are as before, and the one call made on `p` is
`AssignToCpu` for a resource of kind CPU and `AssignToIo` for one of kind IO1 or IO2. -/
theorem C5_assignToFree_error_iff_busy (r : Resource) (p : Process) :
    ((Resource.AssignToFree r p).1.isSome = true ↔ r.state = ResourceState.BUSY) ∧
    (r.state = ResourceState.BUSY →
      Resource.AssignToFree r p = (some "Resource is busy", r, [])) ∧
    (r.state = ResourceState.FREE →
      (Resource.AssignToFree r p).1 = none ∧
      (Resource.AssignToFree r p).2.1 =
        { r with state := ResourceState.BUSY, currentProc := some p } ∧
      (r.resourceType = ResourceType.CPU →
        (Resource.AssignToFree r p).2.2 = [Call.AssignToCpu p]) ∧
      (r.resourceType = ResourceType.IO1 ∨ r.resourceType = ResourceType.IO2 →
        (Resource.AssignToFree r p).2.2 = [ Call.AssignToIo p])) := by
  obtain ⟨name, state, rType, cur, prt⟩ := r
  cases state <;> cases rType <;> simp [Resource.AssignToFree]

/-- C6: `Resource.MustEvict(p)` panics if and only if the resource is FREE or it holds no
process whose id is `p.id`; when it does not panic the resource ends FREE with no current
process, its other fields are as before, and the one call made on `p` is `onEvict`. -/
theorem C6_mustEvict_panics_iff (r : Resource) (p : Process) :
    ((∃ e, Resource.MustEvict r p = Except.error e) ↔
      (r.state = ResourceState.FREE ∨ ∀ c, r.currentProc = some c → c.id ≠ p.id)) ∧
    (∀ r1 calls, Resource.MustEvict r p = Except.ok (r1, calls) →
      r1 = { r with state := ResourceState.FREE, currentProc := none } ∧
      r1.state = ResourceState.FREE ∧ r1.currentProc = none ∧ calls = [Call.onEvict p]) ∧
    (r.state = ResourceState.BUSY → (∃ c, r.currentProc = some c ∧ c.id = p.id) →
      ∃ r1, Resource.MustEvict r p = Except.ok (r1, [Call.onEvict p])) := by
  obtain ⟨name, state, rType, cur, prt⟩ := r
  cases state
  · simp [Resource.MustEvict]
  · cases cur with
    | none => simp [Resource.MustEvict]
    | some c =>
      by_cases h : c.id = p.id
      · simp [Resource.MustEvict, h]
      · simp [Resource.MustEvict, h]

/-! ### The invariant of a resource -/

theorem Resource.Inv_NewResource (name : String) (rType : ResourceType) :
    Resource.Inv (NewResource name rType) := by
  simp [Resource.Inv, NewResource]

theorem Resource.Inv_AssignToFree (r : Resource) (p : Process) (h : Resource.Inv r) :
    Resource.Inv (Resource.AssignToFree r p).2.1 := by
  obtain ⟨name, state, rType, cur, prt⟩ := r
  cases state <;> cases rType <;> simp_all [Resource.AssignToFree, Resource.Inv]

theorem Resource.Inv_Tick (r : Resource) (h : Resource.Inv r) : Resource.Inv (Resource.Tick r) := by
  unfold Resource.Tick
  split
  · exact h
  · exact h

theorem Resource.Inv_MustEvict (r : Resource) (p : Process) (r1 : Resource) (calls : List Call)
    (h : Resource.MustEvict r p = Except.ok (r1, calls)) : Resource.Inv r1 := by
  unfold Resource.MustEvict at h
  split at h
  · cases h
  · split at h
    · cases h
    · split at h
      · cases h
      · injection h with h
        injection h with h1 h2
        subst h1
        simp [Resource.Inv]

theorem newCpuPool_loop_spec (k i : Nat) :
    (NewCpuPool.loop k i).length = k ∧ ∀ r ∈ NewCpuPool.loop k i, Resource.Inv r := by
  induction k generalizing i with
  | zero => simp [NewCpuPool.loop]
  | succ k ih =>
    refine ⟨by simp [NewCpuPool.loop, (ih (i + 1)).1], ?_⟩
    intro r hr
    simp only [NewCpuPool.loop, List.mem_cons] at hr
    rcases hr with rfl | hr
    · exact Resource.Inv_NewResource _ _
    · exact (ih (i + 1)).2 r hr

theorem mustEvict_loop_inv (p : Process) (l l1 : List Resource) (calls : List Call)
    (hl : ∀ r ∈ l, Resource.Inv r)
    (h : CpuPool.MustEvict.loop p l = Except.ok (l1, calls)) : ∀ r ∈ l1, Resource.Inv r := by
  induction l generalizing l1 with
  | nil => simp [CpuPool.MustEvict.loop] at h
  | cons res rest ih =>
    have hres : Resource.Inv res := hl res (List.mem_cons_self _ _)
    have hrest : ∀ r ∈ rest, Resource.Inv r := fun r hr => hl r (List.mem_cons_of_mem _ hr)
    have tail : ∀ rest1, CpuPool.MustEvict.loop p rest = Except.ok (rest1, calls) →
        ∀ r ∈ res :: rest1, Resource.Inv r := by
      intro rest1 hrec r hr
      rcases List.mem_cons.mp hr with rfl | hr
      · exact hres
      · exact ih rest1 hrest hrec r hr
    unfold CpuPool.MustEvict.loop at h
    split at h
    · split at h
      · cases h
      · split at h
        · split at h
          · cases h
          · rename_i res1 calls1 hev
            injection h with h
            injection h with h1 h2
            subst h1 h2
            intro r hr
            rcases List.mem_cons.mp hr with rfl | hr
            · exact Resource.Inv_MustEvict _ _ _ _ hev
            · exact hrest r hr
        · split at h
          · cases h
          · rename_i rest1 calls1 hrec
            injection h with h
            injection h with h1 h2
            subst h1 h2
            exact tail rest1 hrec
    · split at h
      · cases h
      · rename_i rest1 calls1 hrec
        injection h with h
        injection h with h1 h2
        subst h1 h2
        exact tail rest1 hrec

/-- C7: the predicate "the state is BUSY if and only if a current process is set" holds for
every resource built by `NewResource` and every pool built by `NewCpuPool`, and every
operation of a resource or of a pool that returns without a panic keeps it: `GetFree`,
`AssignToFree` (also on the resource that `CpuPool.GetFree` points to, inside the pool),
`Tick`, `GetProcs` and `MustEvict`. -/
theorem C7_busy_iff_current_process_invariant :
    (∀ name rType, Resource.Inv (NewResource name rType)) ∧
    (∀ n : Int, 0 ≤ n →
      ∃ cpu, NewCpuPool n = Except.ok cpu ∧ cpu.cpus.length = n.toNat ∧ CpuPool.Inv cpu) ∧
    (∀ r, Resource.Inv r →
      Resource.Inv (Resource.GetFree r).2 ∧
      (∀ r1, (Resource.GetFree r).1 = Except.ok r1 → Resource.Inv r1) ∧
      (∀ p, Resource.Inv (Resource.AssignToFree r p).2.1) ∧
      Resource.Inv (Resource.Tick r) ∧
      Resource.Inv (Resource.GetProcs r).2 ∧
      (∀ p r1 calls, Resource.MustEvict r p = Except.ok (r1, calls) → Resource.Inv r1)) ∧
    (∀ cpu, CpuPool.Inv cpu →
      CpuPool.Inv (CpuPool.GetFree cpu).2 ∧
      (∀ i r p, (CpuPool.GetFree cpu).1 = Except.ok (i, r) →
        CpuPool.Inv { cpus := cpu.cpus.set i (Resource.AssignToFree r p).2.1 }) ∧
      CpuPool.Inv (CpuPool.Tick cpu) ∧
      CpuPool.Inv (CpuPool.GetProcs cpu).2 ∧
      (∀ p cpu1 calls, CpuPool.MustEvict cpu p = Except.ok (cpu1, calls) →
        CpuPool.Inv cpu1)) := by
  refine ⟨Resource.Inv_NewResource, ?_, ?_, ?_⟩
  · intro n hn
    refine ⟨{ cpus := NewCpuPool.loop n.toNat 0 }, ?_, (newCpuPool_loop_spec _ _).1,
      (newCpuPool_loop_spec _ _).2⟩
    simp [NewCpuPool, not_lt.mpr hn]
  · intro r hr
    refine ⟨?_, ?_, fun p => Resource.Inv_AssignToFree r p hr, Resource.Inv_Tick r hr, ?_,
      fun p r1 calls h => Resource.Inv_MustEvict r p r1 calls h⟩
    · unfold Resource.GetFree
      split <;> exact hr
    · intro r1 h
      unfold Resource.GetFree at h
      split at h
      · cases h
      · injection h with h
        subst h
        exact hr
    · unfold Resource.GetProcs
      split <;> exact hr
  · intro cpu hcpu
    refine ⟨hcpu, ?_, ?_, hcpu, ?_⟩
    · intro i r p h x hx
      have hmem : r ∈ cpu.cpus := by
        have h1 := ((getFree_loop_ok cpu.cpus 0 i r).mp h).2.1
        exact List.getElem?_mem h1
      rcases List.mem_or_eq_of_mem_set hx with hx | rfl
      · exact hcpu x hx
      · exact Resource.Inv_AssignToFree r p (hcpu r hmem)
    · intro x hx
      simp only [CpuPool.Tick, List.mem_map] at hx
      obtain ⟨y, hy, rfl⟩ := hx
      exact Resource.Inv_Tick y (hcpu y hy)
    · intro p cpu1 calls h
      unfold CpuPool.MustEvict at h
      split at h
      · cases h
      · rename_i l1 calls1 hloop
        injection h with h
        injection h with h1 h2
        subst h1 h2
        exact mustEvict_loop_inv p cpu.cpus l1 _ hcpu hloop

/-! ### The machine -/

/-- C8, the code at two inputs.  With two processes that both arrive at tick 0,
`checkForNewProcs` pushes both and then panics on the slice expression of line 112, with
process 1 still in `unscheduledProcs` and missing from `runningProcs`.  With processes
arriving at ticks 0, 0 and 9 it returns at tick 0 having pushed process 0 only: process 1,
which has arrived, is not pushed and stays in `unscheduledProcs`.  With three processes that
all arrive at tick 0 it pushes process 0 and twice process 2, never process 1, and then
panics. -/
theorem C8_checkForNewProcs_same_tick_arrivals :
    panicked (Machine.checkForNewProcs
      (machineWith [arrivingProc 0 0, arrivingProc 1 0] [] 0)) = true ∧
    (machineAfter (Machine.checkForNewProcs
      (machineWith [arrivingProc 0 0, arrivingProc 1 0] [] 0))).cpuScheduler.procs
        = [arrivingProc 0 0, arrivingProc 1 0] ∧
    (machineAfter (Machine.checkForNewProcs
      (machineWith [arrivingProc 0 0, arrivingProc 1 0] [] 0))).unscheduledProcs.toList
        = [arrivingProc 1 0] ∧
    (machineAfter (Machine.checkForNewProcs
      (machineWith [arrivingProc 0 0, arrivingProc 1 0] [] 0))).runningProcs
        = [arrivingProc 0 0] ∧
    panicked (Machine.checkForNewProcs
      (machineWith [arrivingProc 0 0, arrivingProc 1 0, arrivingProc 2 9] [] 0)) = false ∧
    (machineAfter (Machine.checkForNewProcs
      (machineWith [arrivingProc 0 0, arrivingProc 1 0, arrivingProc 2 9] [] 0))).cpuScheduler.procs
        = [arrivingProc 0 0] ∧
    (machineAfter (Machine.checkForNewProcs
      (machineWith [arrivingProc 0 0, arrivingProc 1 0, arrivingProc 2 9] [] 0))).unscheduledProcs.toList
        = [arrivingProc 1 0, arrivingProc 2 9] ∧
    (machineAfter (Machine.checkForNewProcs
      (machineWith [arrivingProc 0 0, arrivingProc 1 0, arrivingProc 2 9] [] 0))).runningProcs
        = [arrivingProc 0 0] ∧
    panicked (Machine.checkForNewProcs
      (machineWith [arrivingProc 0 0, arrivingProc 1 0, arrivingProc 2 0] [] 0)) = true ∧
    (machineAfter (Machine.checkForNewProcs
      (machineWith [arrivingProc 0 0, arrivingProc 1 0, arrivingProc 2 0] [] 0))).cpuScheduler.procs
        = [arrivingProc 0 0, arrivingProc 2 0, arrivingProc 2 0] := by
  refine ⟨?_, ?_, ?_, ?_, ?_, ?_, ?_, ?_, ?_, ?_⟩ <;> decide

/-- C9, the code at two inputs.  `handleEvictedProc` removes the element at index `p.id` of
`runningProcs`, not `p`.  With `runningProcs` holding only the TERMINATED process of id 1 it
panics on the slice expression of line 134 and `runningProcs` keeps the process.  With
`runningProcs` holding the processes of ids 1 and 2 and `p` the TERMINATED process of id 1,
it returns with process 2 removed and `p` kept. -/
theorem C9_handleEvictedProc_removes_index_id (CurTask : Process → Task) :
    panicked (Machine.handleEvictedProc CurTask
      (machineWith [] [terminatedProc 1] 5) (terminatedProc 1)) = true ∧
    (machineAfter (Machine.handleEvictedProc CurTask
      (machineWith [] [terminatedProc 1] 5) (terminatedProc 1))).runningProcs
        = [terminatedProc 1] ∧
    panicked (Machine.handleEvictedProc CurTask
      (machineWith [] [terminatedProc 1, sampleProc 2] 5) (terminatedProc 1)) = false ∧
    (machineAfter (Machine.handleEvictedProc CurTask
      (machineWith [] [terminatedProc 1, sampleProc 2] 5) (terminatedProc 1))).runningProcs
        = [terminatedProc 1] := by
  refine ⟨?_, ?_, ?_, ?_⟩ <;> simp [Machine.handleEvictedProc, terminatedProc, machineWith, panicked, machineAfter]

/-- C10: `handleEvictedProc` routes a process that is not TERMINATED by its state.  A READY
process is pushed once, at the back of the queue of the CPU scheduler; a BLOCKED process
whose current task is IO1 (IO2) is pushed once, at the back of the queue of the IO1 (IO2)
scheduler; nothing else of the machine changes, `runningProcs` included.  A process in
READS_IO, and a BLOCKED process whose current task is CPU, make it panic with the machine
as it was, so without a push. -/
theorem C10_handleEvictedProc_routes_by_state (CurTask : Process → Task) (m : Machine)
    (p : Process) :
    (p.state = ProcState.READY →
      Machine.handleEvictedProc CurTask m p =
        Except.ok { m with cpuScheduler := m.cpuScheduler.PushToQueue m.clock p } ∧
      (m.cpuScheduler.PushToQueue m.clock p).procs = m.cpuScheduler.procs ++ [p]) ∧
    (p.state = ProcState.BLOCKED → (CurTask p).ResouceType = ResourceType.IO1 →
      Machine.handleEvictedProc CurTask m p =
        Except.ok { m with io1Scheduler := m.io1Scheduler.PushToQueue m.clock p } ∧
      (m.io1Scheduler.PushToQueue m.clock p).procs = m.io1Scheduler.procs ++ [p]) ∧
    (p.state = ProcState.BLOCKED → (CurTask p).ResouceType = ResourceType.IO2 →
      Machine.handleEvictedProc CurTask m p =
        Except.ok { m with io2Scheduler := m.io2Scheduler.PushToQueue m.clock p } ∧
      (m.io2Scheduler.PushToQueue m.clock p).procs = m.io2Scheduler.procs ++ [p]) ∧
    (p.state = ProcState.READS_IO →
      ∃ e, Machine.handleEvictedProc CurTask m p = Except.error (e, m)) ∧
    (p.state = ProcState.BLOCKED → (CurTask p).ResouceType = ResourceType.CPU →
      ∃ e, Machine.handleEvictedProc CurTask m p = Except.error (e, m)) := by
  refine ⟨?_, ?_, ?_, ?_, ?_⟩
  · intro h
    simp [Machine.handleEvictedProc, h, Scheduler.PushToQueue, Scheduler.procs, ProcQueue.Push]
  · intro h h1
    simp [Machine.handleEvictedProc, Machine.pushToIO, h, h1, Scheduler.PushToQueue,
      Scheduler.procs, ProcQueue.Push]
  · intro h h2
    simp [Machine.handleEvictedProc, Machine.pushToIO, h, h2, Scheduler.PushToQueue,
      Scheduler.procs, ProcQueue.Push]
  · intro h
    simp [Machine.handleEvictedProc, h]
  · intro h h0
    simp [Machine.handleEvictedProc, Machine.pushToIO, h, h0]

/-! ### The queue -/

theorem pushAll_elements (pq : ProcQueue) (ps : List (Process × Int)) :
    ProcQueue.pushAll pq ps =
      { pq with elements := pq.elements ++
          ps.map (fun x => { process := x.1, enterTime := x.2 }) } := by
  induction ps generalizing pq with
  | nil => simp [ProcQueue.pushAll]
  | cons x xs ih =>
    have := ih (ProcQueue.Push pq x.1 x.2)
    simp only [ProcQueue.pushAll, List.foldl_cons] at this ⊢
    rw [this]
    simp [ProcQueue.Push]

theorem popN_elements (name : String) (es : List QueueElement) :
    ProcQueue.popN es.length { name := name, elements := es } =
      (es.map (fun e => Except.ok e.process), { name := name, elements := [] }) := by
  induction es with
  | nil => rfl
  | cons e rest ih =>
    simp only [List.length_cons, ProcQueue.popN, ProcQueue.Pop, ih, List.map_cons]

/-- C19: `ProcQueue` is first-in first-out.  After `p1..pn` are pushed onto an empty queue
the queue holds them in push order, the next `n` calls of `Pop` return `p1..pn` in that
order and leave the queue empty; each `Pop` on a queue that is not empty returns the
process of the head and removes the head only; `Pop` on an empty queue returns the error
"Queue is empty" and leaves the queue empty. -/
theorem C19_procQueue_fifo (name : String) (ps : List (Process × Int)) :
    (ProcQueue.pushAll { name := name, elements := [] } ps).elements.map QueueElement.process
      = ps.map Prod.fst ∧
    ProcQueue.popN ps.length (ProcQueue.pushAll { name := name, elements := [] } ps)
      = (ps.map (fun x => Except.ok x.1), { name := name, elements := [] }) ∧
    (∀ (pq : ProcQueue) (e : QueueElement) (rest : List QueueElement),
      pq.elements = e :: rest →
        ProcQueue.Pop pq = (Except.ok e.process, { pq with elements := rest })) ∧
    (∀ pq : ProcQueue, pq.elements = [] →
      ProcQueue.Pop pq = (Except.error "Queue is empty", pq)) := by
  refine ⟨?_, ?_, ?_, ?_⟩
  · rw [pushAll_elements]
    simp [Function.comp_def]
  · have h := popN_elements name (ps.map (fun x => { process := x.1, enterTime := x.2 }))
    rw [pushAll_elements]
    simp only [List.nil_append, List.length_map, List.map_map] at h ⊢
    rw [h]
    rfl
  · intro pq e rest h
    simp [ProcQueue.Pop, h]
  · intro pq h
    simp [ProcQueue.Pop, h]

/-! ### Eviction from the pool -/

theorem Resource.MustEvict_of_holdsId (r : Resource) (p : Process)
    (h : Resource.holdsId r p.id) :
    Resource.MustEvict r p =
      Except.ok ({ r with state := ResourceState.FREE, currentProc := none },
        [Call.onEvict p]) := by
  obtain ⟨name, state, rType, cur, prt⟩ := r
  obtain ⟨hs, hc⟩ := h
  simp only at hs hc
  subst hs
  cases cur with
  | none => simp at hc
  | some c =>
    simp only [Option.map_some', Option.some.injEq] at hc
    simp [Resource.MustEvict, hc]

theorem mustEvict_loop_error (p : Process) (l : List Resource)
    (hnil : ∀ r ∈ l, r.state = ResourceState.BUSY → r.currentProc.isSome = true) :
    (∃ e, CpuPool.MustEvict.loop p l = Except.error e) ↔
      ∀ r ∈ l, ¬ Resource.holdsId r p.id := by
  induction l with
  | nil => simp [CpuPool.MustEvict.loop]
  | cons res rest ih =>
    have ih1 := ih (fun r hr => hnil r (List.mem_cons_of_mem _ hr))
    have hres := hnil res (List.mem_cons_self _ _)
    have tail : (∃ e, (match CpuPool.MustEvict.loop p rest with
          | Except.error e => Except.error e
          | Except.ok (rest1, calls) => Except.ok (res :: rest1, calls)) =
            (Except.error e : Except String (List Resource × List Call))) ↔
        ∃ e, CpuPool.MustEvict.loop p rest = Except.error e := by
      cases hrec : CpuPool.MustEvict.loop p rest with
      | error e => simp
      | ok v => simp
    unfold CpuPool.MustEvict.loop
    by_cases hs : res.state = ResourceState.BUSY
    · rw [if_pos hs]
      cases hc : res.currentProc with
      | none => simp [hc] at hres; exact absurd hs (by simpa using hres)
      | some c =>
        by_cases hid : c.id = p.id
        · have hh : Resource.holdsId res p.id := ⟨hs, by simp [hc, hid]⟩
          simp only [hid, if_true, Resource.MustEvict_of_holdsId res p hh]
          simp only [List.mem_cons, forall_eq_or_imp]
          constructor
          · rintro ⟨e, he⟩
            cases he
          · rintro ⟨h1, _⟩
            exact absurd hh h1
        · simp only [hid, if_false]
          rw [tail, ih1]
          have hn : ¬ Resource.holdsId res p.id := by
            rintro ⟨_, h2⟩
            simp [hc] at h2
            exact hid h2
          simp [hn]
    · rw [if_neg hs, tail, ih1]
      have hn : ¬ Resource.holdsId res p.id := fun h => hs h.1
      simp [hn]

theorem mustEvict_loop_ok (p : Process) (l l1 : List Resource) (calls : List Call)
    (h : CpuPool.MustEvict.loop p l = Except.ok (l1, calls)) :
    ∃ i r, l[i]? = some r ∧ Resource.holdsId r p.id ∧
      (∀ j, j < i → ∀ r', l[j]? = some r' → ¬ Resource.holdsId r' p.id) ∧
      l1 = l.set i { r with state := ResourceState.FREE, currentProc := none } ∧
      calls = [Call.onEvict p] := by
  induction l generalizing l1 with
  | nil => simp [CpuPool.MustEvict.loop] at h
  | cons res rest ih =>
    have tail : ¬ Resource.holdsId res p.id →
        ∀ rest1, CpuPool.MustEvict.loop p rest = Except.ok (rest1, calls) →
        ∃ i r, (res :: rest)[i]? = some r ∧ Resource.holdsId r p.id ∧
          (∀ j, j < i → ∀ r', (res :: rest)[j]? = some r' → ¬ Resource.holdsId r' p.id) ∧
          res :: rest1 =
            (res :: rest).set i { r with state := ResourceState.FREE, currentProc := none } ∧
          calls = [Call.onEvict p] := by
      intro hn rest1 hrec
      obtain ⟨i, r, hget, hh, hlow, hset, hcalls⟩ := ih rest1 hrec
      refine ⟨i + 1, r, by simpa using hget, hh, ?_, by simp [hset], hcalls⟩
      intro j hj r' hr'
      cases j with
      | zero =>
        simp at hr'
        subst hr'
        exact hn
      | succ j =>
        exact hlow j (by omega) r' (by simpa using hr')
    unfold CpuPool.MustEvict.loop at h
    split at h
    · rename_i hs
      split at h
      · cases h
      · rename_i c hc
        split at h
        · rename_i hid
          have hh : Resource.holdsId res p.id := ⟨hs, by simp [hc, hid]⟩
          rw [Resource.MustEvict_of_holdsId res p hh] at h
          simp only [Except.ok.injEq, Prod.mk.injEq] at h
          obtain ⟨h1, h2⟩ := h
          refine ⟨0, res, by simp, hh, ?_, by simp [← h1], h2.symm⟩
          intro j hj
          omega
        · rename_i hid
          have hn : ¬ Resource.holdsId res p.id := by
            rintro ⟨_, h2⟩
            simp [hc] at h2
            exact hid h2
          split at h
          · cases h
          · rename_i rest1 calls1 hrec
            simp only [Except.ok.injEq, Prod.mk.injEq] at h
            obtain ⟨h1, h2⟩ := h
            subst h1 h2
            exact tail hn rest1 hrec
    · rename_i hs
      have hn : ¬ Resource.holdsId res p.id := fun h => hs h.1
      split at h
      · cases h
      · rename_i rest1 calls1 hrec
        simp only [Except.ok.injEq, Prod.mk.injEq] at h
        obtain ⟨h1, h2⟩ := h
        subst h1 h2
        exact tail hn rest1 hrec

/-- C20: for a pool in which every BUSY resource has a current process,
`CpuPool.MustEvict(p)` panics if and only if no BUSY resource of the pool holds a process
with id `p.id`.  When it returns, the pool differs from the one before the call in one
place only, the lowest index at which a BUSY resource holds that id: that resource is now
FREE with no current process, its other fields are as before, every other resource of the
pool is as before, and the one call made on `p` is `onEvict`. -/
theorem C20_cpuPool_mustEvict_frees_lowest_holder (cpu : CpuPool) (p : Process)
    (hcur : ∀ r ∈ cpu.cpus, r.state = ResourceState.BUSY → r.currentProc.isSome = true) :
    ((∃ e, CpuPool.MustEvict cpu p = Except.error e) ↔
      ¬ ∃ r ∈ cpu.cpus, Resource.holdsId r p.id) ∧
    (∀ cpu1 calls, CpuPool.MustEvict cpu p = Except.ok (cpu1, calls) →
      ∃ i r, cpu.cpus[i]? = some r ∧ Resource.holdsId r p.id ∧
        (∀ j, j < i → ∀ r', cpu.cpus[j]? = some r' → ¬ Resource.holdsId r' p.id) ∧
        cpu1.cpus =
          cpu.cpus.set i { r with state := ResourceState.FREE, currentProc := none } ∧
        (∀ j, j ≠ i → cpu1.cpus[j]? = cpu.cpus[j]?) ∧
        calls = [Call.onEvict p]) ∧
    ((∃ r ∈ cpu.cpus, Resource.holdsId r p.id) →
      ∃ cpu1, CpuPool.MustEvict cpu p = Except.ok (cpu1, [Call.onEvict p])) := by
  have herr : (∃ e, CpuPool.MustEvict cpu p = Except.error e) ↔
      ¬ ∃ r ∈ cpu.cpus, Resource.holdsId r p.id := by
    have key := mustEvict_loop_error p cpu.cpus hcur
    have hsame : (∃ e, CpuPool.MustEvict cpu p = Except.error e) ↔
        ∃ e, CpuPool.MustEvict.loop p cpu.cpus = Except.error e := by
      unfold CpuPool.MustEvict
      cases hloop : CpuPool.MustEvict.loop p cpu.cpus with
      | error e => simp
      | ok v => simp
    rw [hsame, key]
    simp
  have hok : ∀ cpu1 calls, CpuPool.MustEvict cpu p = Except.ok (cpu1, calls) →
      ∃ i r, cpu.cpus[i]? = some r ∧ Resource.holdsId r p.id ∧
        (∀ j, j < i → ∀ r', cpu.cpus[j]? = some r' → ¬ Resource.holdsId r' p.id) ∧
        cpu1.cpus =
          cpu.cpus.set i { r with state := ResourceState.FREE, currentProc := none } ∧
        (∀ j, j ≠ i → cpu1.cpus[j]? = cpu.cpus[j]?) ∧
        calls = [Call.onEvict p] := by
    intro cpu1 calls h
    unfold CpuPool.MustEvict at h
    split at h
    · cases h
    · rename_i l1 calls1 hloop
      simp only [Except.ok.injEq, Prod.mk.injEq] at h
      obtain ⟨h1, h2⟩ := h
      subst h1 h2
      obtain ⟨i, r, hget, hh, hlow, hset, hcalls⟩ := mustEvict_loop_ok p cpu.cpus l1 _ hloop
      refine ⟨i, r, hget, hh, hlow, hset, ?_, hcalls⟩
      intro j hj
      simp only [hset]
      rw [List.getElem?_set_ne (Ne.symm hj)]
  refine ⟨herr, hok, ?_⟩
  intro hex
  cases hres : CpuPool.MustEvict cpu p with
  | error e => exact absurd hex (herr.mp ⟨e, hres⟩)
  | ok v =>
    obtain ⟨cpu1, calls⟩ := v
    obtain ⟨_, _, _, _, _, _, _, hcalls⟩ := hok cpu1 calls hres
    exact ⟨cpu1, by rw [hcalls]⟩

/-- C20 at a concrete input: in `busyPool` the lowest resource that holds id 7 is the third,
and evicting a process of id 7 frees that one and makes one `onEvict` call. -/
theorem C20_cpuPool_mustEvict_frees_lowest_holder_witness :
    (∀ r ∈ busyPool.cpus, r.state = ResourceState.BUSY → r.currentProc.isSome = true) ∧
    (∃ r ∈ busyPool.cpus, Resource.holdsId r (sampleProc 7).id) ∧
    (∃ cpu1, CpuPool.MustEvict busyPool (sampleProc 7)
      = Except.ok (cpu1, [Call.onEvict (sampleProc 7)])) ∧
    (CpuPool.MustEvict busyPool (sampleProc 7)).toOption.map (fun x => x.1.cpus) =
      some [busyCpu "CPU1" (sampleProc 3) 2, NewResource "CPU2" ResourceType.CPU,
        { name := "CPU3", state := ResourceState.FREE, resourceType := ResourceType.CPU,
          currentProc := none, ProcRunningTime := 1 },
        busyCpu "CPU4" (sampleProc 7) 5] :=
  ⟨by decide, by decide,
    (C20_cpuPool_mustEvict_frees_lowest_holder busyPool (sampleProc 7) (by decide)).2.2
      (by decide),
    by decide⟩

/-! ### The choice of the scheduler -/

/-- C17: `getScheduler` maps fcfs to (non-preemptive, FIFO), spn to (non-preemptive, SPN),
hrrn to (non-preemptive, HRRN), rr1 and rr4 to (Round-Robin with quantum 1 and 4, FIFO),
rr to (Round-Robin with the configured quantum, FIFO) and srt to one SRT object in both
places, and it panics for every other name. -/
theorem C17_getScheduler_mapping (quantum : Int) (procQueue : ProcQueue) (cpuCount : Int) :
    getScheduler quantum (ascii "fcfs") procQueue cpuCount
      = Except.ok (Evictor.NonPreemptive, SelectionFunction.FIFO) ∧
    getScheduler quantum (ascii "spn") procQueue cpuCount
      = Except.ok (Evictor.NonPreemptive, SelectionFunction.SPN) ∧
    getScheduler quantum (ascii "hrrn") procQueue cpuCount
      = Except.ok (Evictor.NonPreemptive, SelectionFunction.HRRN) ∧
    getScheduler quantum (ascii "rr1") procQueue cpuCount
      = Except.ok (Evictor.RoundRobin { quantum := 1 }, SelectionFunction.FIFO) ∧
    getScheduler quantum (ascii "rr4") procQueue cpuCount
      = Except.ok (Evictor.RoundRobin { quantum := 4 }, SelectionFunction.FIFO) ∧
    getScheduler quantum (ascii "rr") procQueue cpuCount
      = Except.ok (Evictor.RoundRobin { quantum := quantum }, SelectionFunction.FIFO) ∧
    getScheduler quantum (ascii "srt") procQueue cpuCount
      = Except.ok (Evictor.SRT { procQueue := procQueue, cpuCount := cpuCount },
          SelectionFunction.SRT { procQueue := procQueue, cpuCount := cpuCount }) ∧
    ∀ name : GoString,
      name ∉ [ascii "fcfs", ascii "spn", ascii "hrrn", ascii "rr", ascii "rr1", ascii "rr4",
        ascii "srt"] →
      ∃ e, getScheduler quantum name procQueue cpuCount = Except.error e := by
  refine ⟨rfl, rfl, rfl, rfl, rfl, rfl, rfl, ?_⟩
  intro name hname
  simp only [List.mem_cons, List.mem_singleton, List.not_mem_nil, or_false, not_or] at hname
  obtain ⟨h1, h2, h3, h4, h5, h6, h7⟩ := hname
  refine ⟨"Unknown scheduling algorithm " ++ GoString.text name, ?_⟩
  simp only [getScheduler, h1, h2, h3, h4, h5, h6, h7, if_false]

/-- C18, the code at the values of the help text: `getScheduler` returns a pair for fcfs,
rr1, spn, srt, hrrn and rr, and it panics for rr2, which the help text of `-algo` gives as
a possible value; rr4, which it accepts, is not in the help text. -/
theorem C18_getScheduler_rejects_listed_rr2 (quantum : Int) (procQueue : ProcQueue)
    (cpuCount : Int) :
    ascii "rr2" ∈ schedAlgoPossibleValues ∧
    getScheduler quantum (ascii "rr2") procQueue cpuCount
      = Except.error "Unknown scheduling algorithm rr2" ∧
    (∀ name ∈ schedAlgoPossibleValues, name ≠ ascii "rr2" →
      ∃ pair, getScheduler quantum name procQueue cpuCount = Except.ok pair) ∧
    ascii "rr4" ∉ schedAlgoPossibleValues ∧
    (∃ pair, getScheduler quantum (ascii "rr4") procQueue cpuCount = Except.ok pair) := by
  refine ⟨by decide, ?_, ?_, by decide, ⟨_, rfl⟩⟩
  · rfl
  · intro name hname hne
    simp only [schedAlgoPossibleValues, List.mem_cons, List.mem_singleton, List.not_mem_nil,
      or_false] at hname
    rcases hname with h | h | h | h | h | h | h
    · exact ⟨_, by rw [h]; rfl⟩
    · exact ⟨_, by rw [h]; rfl⟩
    · exact absurd h hne
    · exact ⟨_, by rw [h]; rfl⟩
    · exact ⟨_, by rw [h]; rfl⟩
    · exact ⟨_, by rw [h]; rfl⟩
    · exact ⟨_, by rw [h]; rfl⟩

/-! ### One tick of the machine -/

theorem wrapInt_of_fits (x : Int) (h1 : -2 ^ 63 ≤ x) (h2 : x < 2 ^ 63) : wrapInt x = x := by
  unfold wrapInt
  rw [Int.emod_eq_of_lt (by omega) (by omega)]
  omega

theorem dropLeading_append (e s : GoString) : dropLeading e (e ++ s) = some s := by
  induction e with
  | nil => cases s <;> rfl
  | cons a e ih => simp [dropLeading, ih]

theorem dropLeading_length (e s r : GoString) (h : dropLeading e s = some r) :
    r.length + e.length = s.length := by
  induction e generalizing s with
  | nil =>
    cases s <;> simp [dropLeading] at h <;> subst h <;> simp
  | cons a e ih =>
    cases s with
    | nil => simp [dropLeading] at h
    | cons b s =>
      simp only [dropLeading] at h
      split at h
      · have := ih s h
        simp only [List.length_cons]
        omega
      · cases h

theorem dropLeading_clash (e f s : GoString) (h : clash e f = true) :
    dropLeading e (f ++ s) = none := by
  induction e generalizing f with
  | nil => simp [clash] at h
  | cons a e ih =>
    cases f with
    | nil => simp [clash] at h
    | cons b f =>
      simp only [clash, Bool.or_eq_true, bne_iff_ne, ne_eq] at h
      simp only [List.cons_append, dropLeading]
      by_cases hab : a = b
      · simp only [hab, if_true]
        rcases h with h | h
        · exact absurd hab h
        · exact ih f h
      · simp [hab]

theorem firstMatch_of_pairwise (encs : List GoString)
    (h : encs.Pairwise (fun a b => clash a b = true)) (e : GoString) (he : e ∈ encs)
    (s : GoString) : firstMatch encs (e ++ s) = some s := by
  induction encs with
  | nil => cases he
  | cons x xs ih =>
    rw [List.pairwise_cons] at h
    unfold firstMatch
    rw [List.findSome?_cons]
    by_cases hx : e = x
    · subst hx
      simp [dropLeading_append]
    · have hmem : e ∈ xs := by
        rcases List.mem_cons.mp he with h1 | h1
        · exact absurd h1 hx
        · exact h1
      rw [dropLeading_clash x e s (h.1 e hmem)]
      exact ih h.2 hmem

theorem firstMatch_length (encs : List GoString) (hne : ∀ e ∈ encs, e ≠ []) (s r : GoString)
    (h : firstMatch encs s = some r) : r.length < s.length := by
  unfold firstMatch at h
  obtain ⟨e, he, hd⟩ := List.exists_of_findSome?_eq_some h
  have := dropLeading_length e s r hd
  have : e.length ≠ 0 := fun h0 => hne e he (List.length_eq_zero.mp h0)
  omega

theorem firstMatch_nil (encs : List GoString) (hne : ∀ e ∈ encs, e ≠ []) :
    firstMatch encs [] = none := by
  cases h : firstMatch encs [] with
  | none => rfl
  | some r =>
    have := firstMatch_length encs hne [] r h
    simp at this

theorem trimLoop_fuel (encs : List GoString) (hne : ∀ e ∈ encs, e ≠ []) (n m : Nat)
    (s : GoString) (hn : s.length ≤ n) (hm : s.length ≤ m) :
    trimLoop encs n s = trimLoop encs m s := by
  induction n generalizing m s with
  | zero =>
    have hs : s = [] := List.length_eq_zero.mp (by omega)
    subst hs
    cases m with
    | zero => rfl
    | succ m => simp [trimLoop, firstMatch_nil encs hne]
  | succ n ih =>
    cases m with
    | zero =>
      have hs : s = [] := List.length_eq_zero.mp (by omega)
      subst hs
      simp [trimLoop, firstMatch_nil encs hne]
    | succ m =>
      simp only [trimLoop]
      cases h : firstMatch encs s with
      | none => rfl
      | some r =>
        have := firstMatch_length encs hne s r h
        exact ih m r (by omega) (by omega)

theorem trimLoop_none (encs : List GoString) (n : Nat) (s : GoString)
    (h : firstMatch encs s = none) : trimLoop encs n s = s := by
  cases n with
  | zero => rfl
  | succ n => simp [trimLoop, h]

theorem trimLoop_flatten (encs : List GoString) (hne : ∀ e ∈ encs, e ≠ [])
    (hsep : ∀ e ∈ encs, ∀ s, firstMatch encs (e ++ s) = some s)
    (es : List GoString) (hes : ∀ e ∈ es, e ∈ encs) (s : GoString) :
    trimLoop encs (es.flatten ++ s).length (es.flatten ++ s) = trimLoop encs s.length s := by
  induction es with
  | nil => simp
  | cons e es ih =>
    have he : e ∈ encs := hes e (List.mem_cons_self _ _)
    have hlen : e.length ≠ 0 := fun h0 => hne e he (List.length_eq_zero.mp h0)
    have hes1 : ∀ x ∈ es, x ∈ encs := fun x hx => hes x (List.mem_cons_of_mem _ hx)
    rw [← ih hes1]
    simp only [List.flatten_cons, List.append_assoc]
    obtain ⟨k, hk⟩ : ∃ k, (e ++ (es.flatten ++ s)).length = k + 1 :=
      ⟨(e ++ (es.flatten ++ s)).length - 1, by simp only [List.length_append]; omega⟩
    rw [hk]
    simp only [trimLoop, hsep e he]
    apply trimLoop_fuel encs hne
    · simp only [List.length_append] at hk ⊢
      omega
    · exact le_refl _

theorem spaceEncodings_ne_nil : ∀ e ∈ spaceEncodings, e ≠ [] := by decide

theorem spaceEncodings_rev_ne_nil : ∀ e ∈ spaceEncodings.map List.reverse, e ≠ [] := by decide

theorem spaceEncodings_sep (e : GoString) (he : e ∈ spaceEncodings) (s : GoString) :
    firstMatch spaceEncodings (e ++ s) = some s :=
  firstMatch_of_pairwise spaceEncodings (by decide) e he s

theorem spaceEncodings_rev_sep (e : GoString) (he : e ∈ spaceEncodings.map List.reverse)
    (s : GoString) : firstMatch (spaceEncodings.map List.reverse) (e ++ s) = some s :=
  firstMatch_of_pairwise _ (by decide) e he s

theorem TrimSpace_core (ws1 core ws2 : GoString) (h1 : IsSpaces ws1) (h2 : IsSpaces ws2)
    (hf : ∀ t, firstMatch spaceEncodings (core ++ t) = none)
    (hl : ∀ t, firstMatch (spaceEncodings.map List.reverse) (core.reverse ++ t) = none) :
    TrimSpace (ws1 ++ core ++ ws2) = core := by
  obtain ⟨es1, hes1, rfl⟩ := h1
  obtain ⟨es2, hes2, rfl⟩ := h2
  have hleft : trimLoop spaceEncodings (es1.flatten ++ core ++ es2.flatten).length
      (es1.flatten ++ core ++ es2.flatten) = core ++ es2.flatten := by
    rw [List.append_assoc, trimLoop_flatten spaceEncodings spaceEncodings_ne_nil
      spaceEncodings_sep es1 hes1, trimLoop_none _ _ _ (hf _)]
  have hrev : (core ++ es2.flatten).reverse =
      (((es2.map List.reverse).reverse).flatten ++ core.reverse) := by
    rw [List.reverse_append, List.reverse_flatten]
  have hmem : ∀ e ∈ (es2.map List.reverse).reverse, e ∈ spaceEncodings.map List.reverse := by
    intro e he
    obtain ⟨x, hx, rfl⟩ := List.mem_map.mp (List.mem_reverse.mp he)
    exact List.mem_map.mpr ⟨x, hes2 x hx, rfl⟩
  unfold TrimSpace
  simp only [hleft]
  rw [← List.length_reverse (core ++ es2.flatten), hrev,
    trimLoop_flatten _ spaceEncodings_rev_ne_nil spaceEncodings_rev_sep _ hmem,
    trimLoop_none _ _ _ (by simpa using hl [])]
  simp

theorem Atoi_digits (digits : GoString) (h : IsDigits digits) :
    Atoi digits =
      if decimalValue digits < 2 ^ 63 then Except.ok (decimalValue digits : Int)
      else Except.error "strconv.Atoi: value out of range" := by
  obtain ⟨hne, hd⟩ := h
  cases digits with
  | nil => exact absurd rfl hne
  | cons c rest =>
    have hc := hd c (List.mem_cons_self _ _)
    have h43 : c ≠ 43 := by omega
    have h45 : c ≠ 45 := by omega
    simp only [Atoi, List.head?_cons, Option.some.injEq, h43, h45, or_self, if_false,
      decide_False, Bool.false_eq_true]
    rw [if_neg (by simp), if_neg (not_not.mpr hd)]

theorem Atoi_minus_digits (digits : GoString) (h : IsDigits digits) :
    Atoi (45 :: digits) =
      if decimalValue digits ≤ 2 ^ 63 then Except.ok (-(decimalValue digits : Int))
      else Except.error "strconv.Atoi: value out of range" := by
  obtain ⟨hne, hd⟩ := h
  simp only [Atoi, List.head?_cons, List.tail_cons, or_true, if_true, decide_True]
  rw [if_neg hne, if_neg (not_not.mpr hd)]

theorem kindName_length (kind : ResourceType) : (kindName kind).length = 3 := by
  cases kind <;> rfl

theorem kindName_type (kind : ResourceType) :
    (if kindName kind = ascii "IO1" then ResourceType.IO1
      else if kindName kind = ascii "IO2" then ResourceType.IO2
      else if kindName kind = ascii "CPU" then ResourceType.CPU
      else ResourceType.CPU) = kind := by
  cases kind <;> decide

theorem taskLiteral_first (kind : ResourceType) (num t : GoString) :
    firstMatch spaceEncodings (taskLiteral kind num ++ t) = none := by
  cases kind <;>
    simp [taskLiteral, kindName, ascii, firstMatch, spaceEncodings, dropLeading]

theorem taskLiteral_last (kind : ResourceType) (num t : GoString) :
    firstMatch (spaceEncodings.map List.reverse) ((taskLiteral kind num).reverse ++ t)
      = none := by
  simp [taskLiteral, firstMatch, spaceEncodings, dropLeading]

theorem ParseTask_taskLiteral (kind : ResourceType) (num ws1 ws2 : GoString)
    (h1 : IsSpaces ws1) (h2 : IsSpaces ws2) :
    ParseTask (ws1 ++ taskLiteral kind num ++ ws2) =
      match Atoi num with
      | Except.error e => Except.error e
      | Except.ok n => Except.ok { ResouceType := kind, TotalTime := n } := by
  have htrim := TrimSpace_core ws1 (taskLiteral kind num) ws2 h1 h2
    (taskLiteral_first kind num) (taskLiteral_last kind num)
  have hlen : (taskLiteral kind num).length = num.length + 5 := by
    simp only [taskLiteral, List.length_append, List.length_cons, kindName_length,
      List.length_nil]
    omega
  have htake : (taskLiteral kind num).take 3 = kindName kind := by
    unfold taskLiteral
    rw [List.take_append_of_le_length (by rw [kindName_length])]
    exact List.take_of_length_le (by rw [kindName_length])
  have hnum : ((taskLiteral kind num).take ((taskLiteral kind num).length - 1)).drop 4
      = num := by
    rw [hlen]
    have h3 := kindName_length kind
    have e1 : taskLiteral kind num = (kindName kind ++ [40]) ++ (num ++ [41]) := by
      simp [taskLiteral]
    have e2 : (kindName kind ++ [40]).length = 4 := by simp [h3]
    rw [e1, List.take_append_eq_append_take, List.drop_append_eq_append_drop]
    simp [e2, h3]
  unfold ParseTask
  simp only [htrim, htake, hnum, kindName_type]
  rw [if_neg (by omega), if_neg (by omega)]

theorem decimalValue_append (a : GoString) (c : Nat) :
    decimalValue (a ++ [c]) = decimalValue a * 10 + (c - 48) := by
  simp [decimalValue, List.foldl_append]

theorem decimalValue_digits (l : List Nat) :
    decimalValue (l.reverse.map (fun d => d + 48)) = Nat.ofDigits 10 l := by
  induction l with
  | nil => rfl
  | cons d l ih =>
    rw [List.reverse_cons, List.map_append, List.map_singleton, decimalValue_append, ih,
      Nat.ofDigits_cons]
    omega

theorem decimal_spec (n : Nat) : IsDigits (decimal n) ∧ decimalValue (decimal n) = n := by
  unfold decimal
  by_cases h : n = 0
  · subst h
    decide
  · rw [if_neg h]
    refine ⟨⟨?_, ?_⟩, ?_⟩
    · intro hnil
      have h0 : (Nat.digits 10 n).reverse = [] := by
        simpa using hnil
      exact (Nat.digits_ne_nil_iff_ne_zero.mpr h) (List.reverse_eq_nil_iff.mp h0)
    · intro c hc
      obtain ⟨d, hd, rfl⟩ := List.mem_map.mp hc
      have := Nat.digits_lt_base (by norm_num : 1 < 10) (List.mem_reverse.mp hd)
      omega
    · rw [decimalValue_digits, Nat.ofDigits_digits]

theorem isSpaces_nil : IsSpaces [] :=
  ⟨[], by simp, rfl⟩

/-- C12: for every kind, every positive `N` below `2^63` and every white space `ws1` and
`ws2`, `ParseTask` applied to `ws1 KIND(N) ws2`, with `N` written in decimal, returns the
task of that kind with `TotalTime = N`; this holds for the writing of `N` without leading
zeros and for every other string of decimal digits whose value is `N`. -/
theorem C12_parseTask_reads_literal (kind : ResourceType) (N : Nat) (ws1 ws2 : GoString)
    (hpos : 0 < N) (hfit : N < 2 ^ 63) (h1 : IsSpaces ws1) (h2 : IsSpaces ws2) :
    ParseTask (ws1 ++ taskLiteral kind (decimal N) ++ ws2)
      = Except.ok { ResouceType := kind, TotalTime := (N : Int) } ∧
    ∀ digits, IsDigits digits → decimalValue digits = N →
      ParseTask (ws1 ++ taskLiteral kind digits ++ ws2)
        = Except.ok { ResouceType := kind, TotalTime := (N : Int) } := by
  have hpos' := hpos
  have key : ∀ digits, IsDigits digits → decimalValue digits = N →
      ParseTask (ws1 ++ taskLiteral kind digits ++ ws2)
        = Except.ok { ResouceType := kind, TotalTime := (N : Int) } := by
    intro digits hd hv
    rw [ParseTask_taskLiteral kind digits ws1 ws2 h1 h2, Atoi_digits digits hd, hv, if_pos hfit]
  exact ⟨key _ (decimal_spec N).1 (decimal_spec N).2, key⟩

/-- C12 at a concrete input: the literal `IO1(15)` between a blank and a tab on the left and
an em space (U+2003) and a line feed on the right. -/
theorem C12_parseTask_reads_literal_witness :
    (0 : Nat) < 15 ∧ (15 : Nat) < 2 ^ 63 ∧ IsSpaces [32, 9] ∧ IsSpaces [226, 128, 131, 10] ∧
    ParseTask ([32, 9] ++ taskLiteral ResourceType.IO1 (decimal 15) ++ [226, 128, 131, 10])
      = Except.ok { ResouceType := ResourceType.IO1, TotalTime := 15 } :=
  ⟨by decide, by decide, ⟨[[32], [9]], by decide, rfl⟩, ⟨[[226, 128, 131], [10]], by decide, rfl⟩,
    (C12_parseTask_reads_literal ResourceType.IO1 15 [32, 9] [226, 128, 131, 10] (by decide)
      (by decide) ⟨[[32], [9]], by decide, rfl⟩ ⟨[[226, 128, 131], [10]], by decide, rfl⟩).1⟩

/-- C13, the code at three inputs: for the literals `FOO(5)`, `IO3(7)` and `cpu(2)`, whose
kind is none of CPU, IO1 and IO2, `ParseTask` does not fail; the switch has no default,
`taskType` keeps its zero value and the result is a CPU task. -/
theorem C13_parseTask_unknown_kind_is_cpu :
    ParseTask (ascii "FOO(5)") = Except.ok { ResouceType := ResourceType.CPU, TotalTime := 5 } ∧
    ParseTask (ascii "IO3(7)") = Except.ok { ResouceType := ResourceType.CPU, TotalTime := 7 } ∧
    ParseTask (ascii "cpu(2)") = Except.ok { ResouceType := ResourceType.CPU, TotalTime := 2 } := by
  refine ⟨?_, ?_, ?_⟩ <;> rfl

/-- C14, the claim as stated fails: `ParseTask` returns a task for `CPU(0)` and for
`IO1(-3)`, with `TotalTime` 0 and -3. -/
theorem C14_counterexample_nonpositive_time_accepted :
    ParseTask (ascii "CPU(0)") = Except.ok { ResouceType := ResourceType.CPU, TotalTime := 0 } ∧
    ParseTask (ascii "IO1(-3)")
      = Except.ok { ResouceType := ResourceType.IO1, TotalTime := -3 } := by
  constructor <;> rfl

/-- C14, amended: `ParseTask` does not look at the sign of the number.  For every kind and
every string of decimal digits of value `v`, the literal `KIND(-digits)` gives the task of
that kind with `TotalTime = -v` when `v ≤ 2^63`, and the literal `KIND(digits)` gives the
task with `TotalTime = 0` when `v = 0`. -/
theorem C14_parseTask_accepts_nonpositive (kind : ResourceType) (digits ws1 ws2 : GoString)
    (hd : IsDigits digits) (h1 : IsSpaces ws1) (h2 : IsSpaces ws2) :
    (decimalValue digits ≤ 2 ^ 63 →
      ParseTask (ws1 ++ taskLiteral kind (45 :: digits) ++ ws2)
        = Except.ok { ResouceType := kind, TotalTime := -(decimalValue digits : Int) }) ∧
    (decimalValue digits = 0 →
      ParseTask (ws1 ++ taskLiteral kind digits ++ ws2)
        = Except.ok { ResouceType := kind, TotalTime := 0 }) := by
  constructor
  · intro hv
    rw [ParseTask_taskLiteral kind _ ws1 ws2 h1 h2, Atoi_minus_digits digits hd, if_pos hv]
  · intro hv
    rw [ParseTask_taskLiteral kind _ ws1 ws2 h1 h2, Atoi_digits digits hd, hv,
      if_pos (by norm_num)]
    rfl

/-- C14 amended, at a concrete input: the literal `IO2(-40)`. -/
theorem C14_parseTask_accepts_nonpositive_witness :
    IsDigits [52, 48] ∧ IsSpaces [] ∧ decimalValue [52, 48] ≤ 2 ^ 63 ∧
    ParseTask ([] ++ taskLiteral ResourceType.IO2 (45 :: [52, 48]) ++ [])
      = Except.ok { ResouceType := ResourceType.IO2, TotalTime := -(decimalValue [52, 48] : Int) } :=
  ⟨by decide, isSpaces_nil, by decide,
    (C14_parseTask_accepts_nonpositive ResourceType.IO2 [52, 48] [] [] (by decide) isSpaces_nil
      isSpaces_nil).1 (by decide)⟩

theorem Split_no_sep (sep : Nat) (x : GoString) (h : sep ∉ x) : Split sep x = [x] := by
  induction x with
  | nil => rfl
  | cons c x ih =>
    have hc : c ≠ sep := fun e => h (e ▸ List.mem_cons_self _ _)
    have hx : sep ∉ x := fun e => h (List.mem_cons_of_mem _ e)
    simp [Split, hc, ih hx]

theorem Split_append_sep (sep : Nat) (x s : GoString) (h : sep ∉ x) :
    Split sep (x ++ sep :: s) = x :: Split sep s := by
  induction x with
  | nil => simp [Split]
  | cons c x ih =>
    have hc : c ≠ sep := fun e => h (e ▸ List.mem_cons_self _ _)
    have hx : sep ∉ x := fun e => h (List.mem_cons_of_mem _ e)
    simp [Split, hc, ih hx]

theorem Split_joinBy (sep : Nat) (pieces : List GoString) (hne : pieces ≠ [])
    (h : ∀ x ∈ pieces, sep ∉ x) : Split sep (joinBy sep pieces) = pieces := by
  induction pieces with
  | nil => exact absurd rfl hne
  | cons x rest ih =>
    cases rest with
    | nil => simpa [joinBy] using Split_no_sep sep x (h x (List.mem_cons_self _ _))
    | cons y rest =>
      rw [joinBy, Split_append_sep sep x _ (h x (List.mem_cons_self _ _)),
        ih (by simp) (fun z hz => h z (List.mem_cons_of_mem _ hz))]

theorem joinBy_append_sep (sep : Nat) (pieces : List GoString) (hne : pieces ≠ []) :
    joinBy sep pieces ++ [sep] = joinBy sep (pieces ++ [[]]) := by
  induction pieces with
  | nil => exact absurd rfl hne
  | cons x rest ih =>
    cases rest with
    | nil => simp [joinBy]
    | cons y rest =>
      have := ih (by simp)
      simp only [joinBy, List.cons_append, List.append_assoc] at this ⊢
      rw [this]
      rfl

theorem joinBy_head (sep : Nat) (x : GoString) (rest : List GoString) :
    ∃ r, joinBy sep (x :: rest) = x ++ r := by
  cases rest with
  | nil => exact ⟨[], by simp [joinBy]⟩
  | cons y rest => exact ⟨sep :: joinBy sep (y :: rest), rfl⟩

theorem joinBy_last (sep : Nat) (pieces : List GoString) (x : GoString) :
    ∃ r, joinBy sep (pieces ++ [x]) = r ++ x := by
  induction pieces with
  | nil => exact ⟨[], by simp [joinBy]⟩
  | cons y rest ih =>
    obtain ⟨r, hr⟩ := ih
    cases hrest : rest ++ [x] with
    | nil => simp at hrest
    | cons z zs =>
      refine ⟨y ++ sep :: r, ?_⟩
      rw [List.cons_append, hrest, joinBy, ← hrest, hr]
      simp

theorem taskLiteral_no_semicolon (kind : ResourceType) (digits : GoString)
    (hd : IsDigits digits) : 59 ∉ taskLiteral kind digits := by
  intro h
  simp only [taskLiteral, List.mem_append, List.mem_cons, List.mem_singleton] at h
  rcases h with h | h | h | h
  · cases kind <;> simp [kindName, ascii] at h
  · exact absurd h (by decide)
  · have := hd.2 59 h
    omega
  · exact absurd h (by decide)

theorem parseProcess_loop_literals (lits : List (ResourceType × GoString))
    (hwf : ∀ x ∈ lits, IsTaskNumber x.2) :
    ParseProcess.loop (lits.map (fun x => taskLiteral x.1 x.2)) = Except.ok (tasksOf lits) := by
  induction lits with
  | nil => rfl
  | cons x rest ih =>
    have hx := hwf x (List.mem_cons_self _ _)
    have hp : ParseTask (taskLiteral x.1 x.2)
        = Except.ok { ResouceType := x.1, TotalTime := (decimalValue x.2 : Int) } := by
      have := ParseTask_taskLiteral x.1 x.2 [] [] isSpaces_nil isSpaces_nil
      simp only [List.nil_append, List.append_nil] at this
      rw [this, Atoi_digits x.2 hx.1, if_pos hx.2.2]
    simp only [List.map_cons, ParseProcess.loop, hp,
      ih (fun y hy => hwf y (List.mem_cons_of_mem _ hy))]
    rfl

theorem taskLine_first (lits : List (ResourceType × GoString)) (hne : lits ≠ [])
    (t : GoString) : firstMatch spaceEncodings (taskLine lits ++ t) = none := by
  cases lits with
  | nil => exact absurd rfl hne
  | cons x rest =>
    obtain ⟨r, hr⟩ := joinBy_head 59 (taskLiteral x.1 x.2)
      (rest.map (fun x => taskLiteral x.1 x.2))
    simp only [taskLine, List.map_cons, hr, List.append_assoc]
    exact taskLiteral_first x.1 x.2 _

theorem taskLine_last (lits : List (ResourceType × GoString)) (hne : lits ≠ [])
    (t : GoString) :
    firstMatch (spaceEncodings.map List.reverse) ((taskLine lits).reverse ++ t) = none := by
  obtain ⟨front, x, rfl⟩ : ∃ front x, lits = front ++ [x] :=
    ⟨lits.dropLast, lits.getLast hne, (List.dropLast_append_getLast hne).symm⟩
  obtain ⟨r, hr⟩ := joinBy_last 59 (front.map (fun x => taskLiteral x.1 x.2))
    (taskLiteral x.1 x.2)
  simp only [taskLine, List.map_append, List.map_cons, List.map_nil, hr, List.reverse_append,
    List.append_assoc]
  exact taskLiteral_last x.1 x.2 _

theorem parsedTasks_of_pieces (ws1 core ws2 : GoString) (pieces : List GoString)
    (h1 : IsSpaces ws1) (h2 : IsSpaces ws2)
    (hf : ∀ t, firstMatch spaceEncodings (core ++ t) = none)
    (hl : ∀ t, firstMatch (spaceEncodings.map List.reverse) (core.reverse ++ t) = none)
    (hsplit : Split 59 core = pieces) :
    ParseProcess.parsedTasks (ws1 ++ core ++ ws2) =
      ParseProcess.loop (if pieces.getLast? = some [] then pieces.dropLast else pieces) := by
  unfold ParseProcess.parsedTasks
  simp only [TrimSpace_core ws1 core ws2 h1 h2 hf hl, hsplit]

theorem semicolon_last (s t : GoString) :
    firstMatch (spaceEncodings.map List.reverse) (59 :: s ++ t) = none := by
  simp [firstMatch, spaceEncodings, dropLeading]

/-- C15: for a non-empty list of well-formed task literals joined by `;` into a line,
`ParseProcess` builds the same task sequence from the line and from the line followed by
one `;` (also with white space around the line), namely the `ParseTask` results of the
literals in line order, and so the same `NewProcess` call. -/
theorem C15_parseProcess_trailing_semicolon (NewProcess : Int → Int → List Task → Process)
    (arrivalInterval id : Int) (lits : List (ResourceType × GoString)) (ws1 ws2 : GoString)
    (hne : lits ≠ []) (hwf : ∀ x ∈ lits, IsTaskNumber x.2)
    (h1 : IsSpaces ws1) (h2 : IsSpaces ws2) :
    ParseProcess.parsedTasks (ws1 ++ taskLine lits ++ ws2) = Except.ok (tasksOf lits) ∧
    ParseProcess.parsedTasks (ws1 ++ (taskLine lits ++ [59]) ++ ws2)
      = Except.ok (tasksOf lits) ∧
    lits.map (fun x => ParseTask (taskLiteral x.1 x.2)) = (tasksOf lits).map Except.ok ∧
    ParseProcess NewProcess arrivalInterval id (ws1 ++ taskLine lits ++ ws2)
      = Except.ok (NewProcess id (calcArrivalTime arrivalInterval id) (tasksOf lits)) ∧
    ParseProcess NewProcess arrivalInterval id (ws1 ++ (taskLine lits ++ [59]) ++ ws2)
      = Except.ok (NewProcess id (calcArrivalTime arrivalInterval id) (tasksOf lits)) := by
  have hpne : lits.map (fun x => taskLiteral x.1 x.2) ≠ [] := by simpa using hne
  have hno : ∀ p ∈ lits.map (fun x => taskLiteral x.1 x.2), 59 ∉ p := by
    intro p hp
    obtain ⟨x, hx, rfl⟩ := List.mem_map.mp hp
    exact taskLiteral_no_semicolon x.1 x.2 (hwf x hx).1
  have hlast : (lits.map (fun x => taskLiteral x.1 x.2)).getLast? ≠ some [] := by
    obtain ⟨front, x, rfl⟩ : ∃ front x, lits = front ++ [x] :=
      ⟨lits.dropLast, lits.getLast hne, (List.dropLast_append_getLast hne).symm⟩
    rw [List.map_append, List.map_singleton, List.getLast?_concat]
    intro h
    have : (taskLiteral x.1 x.2).length = 0 := by
      rw [Option.some.inj h]
      rfl
    simp [taskLiteral] at this
  have hA : ParseProcess.parsedTasks (ws1 ++ taskLine lits ++ ws2)
      = Except.ok (tasksOf lits) := by
    rw [parsedTasks_of_pieces ws1 (taskLine lits) ws2 _ h1 h2 (taskLine_first lits hne)
      (taskLine_last lits hne) (Split_joinBy 59 _ hpne hno), if_neg hlast]
    exact parseProcess_loop_literals lits hwf
  have hB : ParseProcess.parsedTasks (ws1 ++ (taskLine lits ++ [59]) ++ ws2)
      = Except.ok (tasksOf lits) := by
    have hsplit : Split 59 (taskLine lits ++ [59])
        = lits.map (fun x => taskLiteral x.1 x.2) ++ [[]] := by
      unfold taskLine
      rw [joinBy_append_sep 59 _ hpne]
      apply Split_joinBy
      · simp
      · intro p hp
        rcases List.mem_append.mp hp with hp | hp
        · exact hno p hp
        · simp only [List.mem_singleton] at hp
          subst hp
          simp
    rw [parsedTasks_of_pieces ws1 (taskLine lits ++ [59]) ws2 _ h1 h2 ?_ ?_ hsplit,
      if_pos (List.getLast?_concat _), List.dropLast_concat]
    · exact parseProcess_loop_literals lits hwf
    · intro t
      rw [List.append_assoc]
      exact taskLine_first lits hne _
    · intro t
      rw [List.reverse_append]
      exact semicolon_last _ _
  refine ⟨hA, hB, ?_, ?_, ?_⟩
  · unfold tasksOf
    rw [List.map_map]
    apply List.map_congr_left
    intro x hx
    have := ParseTask_taskLiteral x.1 x.2 [] [] isSpaces_nil isSpaces_nil
    simp only [List.nil_append, List.append_nil] at this
    rw [this, Atoi_digits x.2 (hwf x hx).1, if_pos (hwf x hx).2.2]
    rfl
  · simp only [ParseProcess, hA]
  · simp only [ParseProcess, hB]

/-- C15 at a concrete input: the line `CPU(2);IO1(3);CPU(1)` of scenario B. -/
theorem C15_parseProcess_trailing_semicolon_witness :
    ParseProcess.parsedTasks (ascii "CPU(2);IO1(3);CPU(1)")
      = Except.ok [{ ResouceType := ResourceType.CPU, TotalTime := 2 },
          { ResouceType := ResourceType.IO1, TotalTime := 3 },
          { ResouceType := ResourceType.CPU, TotalTime := 1 }] ∧
    ParseProcess.parsedTasks (ascii "CPU(2);IO1(3);CPU(1);")
      = Except.ok [{ ResouceType := ResourceType.CPU, TotalTime := 2 },
          { ResouceType := ResourceType.IO1, TotalTime := 3 },
          { ResouceType := ResourceType.CPU, TotalTime := 1 }] :=
  ⟨(C15_parseProcess_trailing_semicolon (fun _ _ _ => sampleProc 0) 2 0
      [(ResourceType.CPU, [50]), (ResourceType.IO1, [51]), (ResourceType.CPU, [49])] [] []
      (by decide) (by decide) isSpaces_nil isSpaces_nil).1,
    (C15_parseProcess_trailing_semicolon (fun _ _ _ => sampleProc 0) 2 0
      [(ResourceType.CPU, [50]), (ResourceType.IO1, [51]), (ResourceType.CPU, [49])] [] []
      (by decide) (by decide) isSpaces_nil isSpaces_nil).2.1⟩

theorem parseProcesses_loop_spec (NewProcess : Int → Int → List Task → Process)
    (arrivalInterval : Int) (lines : List GoString) (tss : List (List Task)) (k : Nat)
    (h : lines.map ParseProcess.parsedTasks = tss.map Except.ok) :
    ParseProcesses.loop NewProcess arrivalInterval lines (k : Int) =
      Except.ok ((tss.enumFrom k).map
        (fun x => NewProcess (x.1 : Int) (calcArrivalTime arrivalInterval (x.1 : Int)) x.2)) := by
  induction lines generalizing tss k with
  | nil =>
    cases tss with
    | nil => rfl
    | cons ts tss => simp at h
  | cons line lines ih =>
    cases tss with
    | nil => simp at h
    | cons ts tss =>
      simp only [List.map_cons, List.cons.injEq] at h
      have hrec := ih tss (k + 1) h.2
      rw [Nat.cast_add, Nat.cast_one] at hrec
      simp only [ParseProcesses.loop, ParseProcess, h.1, hrec, List.enumFrom_cons,
        List.map_cons]

/-- C16: when every one of the `n` lines parses, `ParseProcesses` returns `n` processes in
line order, and the process of line `i`, counted from 0, is built by `NewProcess` with id
`i`, arrival time `i * interval` (the product of Go `int`s, which is the exact product
whenever that fits 64 bits) and the tasks of line `i`. -/
theorem C16_parseProcesses_ids_and_arrivals (NewProcess : Int → Int → List Task → Process)
    (arrivalInterval : Int) (lines : List GoString) (tss : List (List Task))
    (h : lines.map ParseProcess.parsedTasks = tss.map Except.ok) :
    ParseProcesses NewProcess arrivalInterval lines
      = Except.ok (processesOf NewProcess arrivalInterval tss) ∧
    (processesOf NewProcess arrivalInterval tss).length = lines.length ∧
    (∀ (i : Nat) (ts : List Task), tss[i]? = some ts →
      (processesOf NewProcess arrivalInterval tss)[i]?
        = some (NewProcess (i : Int) (calcArrivalTime arrivalInterval (i : Int)) ts)) ∧
    (∀ i : Nat, calcArrivalTime arrivalInterval (i : Int) = wrapInt ((i : Int) * arrivalInterval)) ∧
    (∀ i : Nat, -2 ^ 63 ≤ (i : Int) * arrivalInterval → (i : Int) * arrivalInterval < 2 ^ 63 →
      calcArrivalTime arrivalInterval (i : Int) = (i : Int) * arrivalInterval) := by
  refine ⟨?_, ?_, ?_, fun _ => rfl, ?_⟩
  · have := parseProcesses_loop_spec NewProcess arrivalInterval lines tss 0 h
    simpa [ParseProcesses, processesOf, List.enum] using this
  · have hlen : lines.length = tss.length := by
      have := congrArg List.length h
      simpa using this
    simp [processesOf, hlen]
  · intro i ts hi
    simp [processesOf, List.getElem?_enum, hi]
  · intro i hlo hhi
    exact wrapInt_of_fits _ hlo hhi

/-- C16 at a concrete input: three lines and the interval 2. -/
theorem C16_parseProcesses_ids_and_arrivals_witness :
    [ascii "CPU(2);IO1(3)", ascii "CPU(1)", ascii "IO2(4);"].map ParseProcess.parsedTasks
      = [[{ ResouceType := ResourceType.CPU, TotalTime := 2 },
            { ResouceType := ResourceType.IO1, TotalTime := 3 }],
          [{ ResouceType := ResourceType.CPU, TotalTime := 1 }],
          [{ ResouceType := ResourceType.IO2, TotalTime := 4 }]].map Except.ok ∧
    ParseProcesses (fun id arrival _ => arrivingProc id arrival) 2
        [ascii "CPU(2);IO1(3)", ascii "CPU(1)", ascii "IO2(4);"]
      = Except.ok [arrivingProc 0 0, arrivingProc 1 2, arrivingProc 2 4] :=
  ⟨rfl,
    (C16_parseProcesses_ids_and_arrivals (fun id arrival _ => arrivingProc id arrival) 2
      [ascii "CPU(2);IO1(3)", ascii "CPU(1)", ascii "IO2(4);"]
      [[{ ResouceType := ResourceType.CPU, TotalTime := 2 },
          { ResouceType := ResourceType.IO1, TotalTime := 3 }],
        [{ ResouceType := ResourceType.CPU, TotalTime := 1 }],
        [{ ResouceType := ResourceType.IO2, TotalTime := 4 }]] rfl).1.trans rfl⟩

/-! ### Round-robin eviction with a quantum that is not positive -/

/-- C21: `getScheduler` passes the value of `-quantum` to the Round-Robin evictor as it is,
and for a quantum `q ≤ 0` and a non-empty list of processes whose `runningTime` is not
negative, `RoundRobin.ChooseToEvict` returns no list: at the first process it panics on the
check `runningTime > quantum`, or, when that check passes, the quantum is 0 and it panics on
the division by zero in `clock % quantum`.  On the empty list it returns the empty list. -/
theorem C21_roundRobin_nonpositive_quantum_panics (IsTaskCompleted : Process → Bool) (q : Int)
    (procs : List Process) (hq : q ≤ 0) (hne : procs ≠ [])
    (hrt : ∀ p ∈ procs, 0 ≤ p.runningTime) :
    (∃ e, RoundRobin.ChooseToEvict IsTaskCompleted (NewRoundRobinEvictor q) procs
      = Except.error e) ∧
    (∀ p rest, procs = p :: rest →
      (p.runningTime > q →
        RoundRobin.ChooseToEvict IsTaskCompleted (NewRoundRobinEvictor q) procs
          = Except.error ("Process " ++ toString p.id ++ " has passed time " ++
              toString p.runningTime ++ ", but quantum is " ++ toString q)) ∧
      (¬ p.runningTime > q →
        q = 0 ∧ p.runningTime = 0 ∧
        RoundRobin.ChooseToEvict IsTaskCompleted (NewRoundRobinEvictor q) procs
          = Except.error "integer divide by zero")) ∧
    RoundRobin.ChooseToEvict IsTaskCompleted (NewRoundRobinEvictor q) [] = Except.ok [] ∧
    (∀ procQueue cpuCount, getScheduler q (ascii "rr") procQueue cpuCount
      = Except.ok (Evictor.RoundRobin (NewRoundRobinEvictor q), SelectionFunction.FIFO)) := by
  have hfirst : ∀ p rest, procs = p :: rest →
      (p.runningTime > q →
        RoundRobin.ChooseToEvict IsTaskCompleted (NewRoundRobinEvictor q) procs
          = Except.error ("Process " ++ toString p.id ++ " has passed time " ++
              toString p.runningTime ++ ", but quantum is " ++ toString q)) ∧
      (¬ p.runningTime > q →
        q = 0 ∧ p.runningTime = 0 ∧
        RoundRobin.ChooseToEvict IsTaskCompleted (NewRoundRobinEvictor q) procs
          = Except.error "integer divide by zero") := by
    intro p rest hp
    subst hp
    have h0 := hrt p (List.mem_cons_self _ _)
    constructor
    · intro hgt
      simp only [RoundRobin.ChooseToEvict, NewRoundRobinEvictor, RoundRobin.ChooseToEvict.loop,
        hgt, if_true]
    · intro hle
      have hq0 : q = 0 := by omega
      refine ⟨hq0, by omega, ?_⟩
      subst hq0
      simp only [RoundRobin.ChooseToEvict, NewRoundRobinEvictor, RoundRobin.ChooseToEvict.loop,
        hle, if_false, if_true]
  refine ⟨?_, hfirst, rfl, fun _ _ => rfl⟩
  cases procs with
  | nil => exact absurd rfl hne
  | cons p rest =>
    by_cases hgt : p.runningTime > q
    · exact ⟨_, ((hfirst p rest rfl).1 hgt)⟩
    · exact ⟨_, ((hfirst p rest rfl).2 hgt).2.2⟩

/-- C21 at two concrete inputs: quantum 0 with a process that has not run, which ends in
the division by zero, and quantum -1, which ends in the check of the running time. -/
theorem C21_roundRobin_nonpositive_quantum_panics_witness :
    ((0 : Int) ≤ 0 ∧ [runningProc 0 0 3] ≠ [] ∧
      (∀ p ∈ [runningProc 0 0 3], 0 ≤ p.runningTime) ∧
      RoundRobin.ChooseToEvict (fun _ => true) (NewRoundRobinEvictor 0) [runningProc 0 0 3]
        = Except.error "integer divide by zero") ∧
    ((-1 : Int) ≤ 0 ∧
      ∃ e, RoundRobin.ChooseToEvict (fun _ => true) (NewRoundRobinEvictor (-1))
        [runningProc 0 0 3, runningProc 1 2 3] = Except.error e) :=
  ⟨⟨by decide, by decide, by decide,
      ((C21_roundRobin_nonpositive_quantum_panics (fun _ => true) 0 [runningProc 0 0 3]
        (by decide) (by decide) (by decide)).2.1 (runningProc 0 0 3) [] rfl).2
        (by decide) |>.2.2⟩,
    ⟨by decide,
      (C21_roundRobin_nonpositive_quantum_panics (fun _ => true) (-1)
        [runningProc 0 0 3, runningProc 1 2 3] (by decide) (by decide) (by decide)).1⟩⟩

end OsScheduler
